import Mathlib

/-!
Verification of the v2ray-to-clash subscription converter (Rust sources under
src/src-tauri/src/).  Rust strings are modelled as `List Char`; byte-level
operations (slicing, `len()`) are modelled through the UTF-8 byte size of each
character.  Functions that can panic in Rust return `Except String _` where
the error carries the panic message.  External crates (regex, reqwest, url,
serde) are modelled explicitly where their observable behaviour matters and
are otherwise passed in as oracle parameters, so theorems quantify over every
possible behaviour of the external code.
-/

namespace V2C

/-- UTF-8 byte size of a character (as Rust `char::len_utf8`). -/
def utf8Size (c : Char) : Nat :=
  if c.toNat < 0x80 then 1
  else if c.toNat < 0x800 then 2
  else if c.toNat < 0x10000 then 3
  else 4

/-- Byte length of a Rust string (`str::len`). -/
def byteLen (s : List Char) : Nat := (s.map utf8Size).sum

/-- Rust `char::is_ascii_alphanumeric`. -/
def isAsciiAlnum (c : Char) : Bool :=
  (0x30 ≤ c.toNat && c.toNat ≤ 0x39) ||
  (0x41 ≤ c.toNat && c.toNat ≤ 0x5A) ||
  (0x61 ≤ c.toNat && c.toNat ≤ 0x7A)

/-- Rust `char::is_whitespace` (Unicode White_Space property). -/
def isRustWhitespace (c : Char) : Bool :=
  let n := c.toNat
  (0x09 ≤ n && n ≤ 0x0D) || n == 0x20 || n == 0x85 || n == 0xA0 ||
  n == 0x1680 || (0x2000 ≤ n && n ≤ 0x200A) || n == 0x2028 || n == 0x2029 ||
  n == 0x202F || n == 0x205F || n == 0x3000

/-- Rust `str::trim`. -/
def rustTrim (s : List Char) : List Char :=
  ((s.dropWhile isRustWhitespace).reverse.dropWhile isRustWhitespace).reverse

/-- Rust `str::contains` for a substring needle. -/
def containsSub (needle : List Char) : List Char → Bool
  | [] => needle.isPrefixOf []
  | c :: rest => needle.isPrefixOf (c :: rest) || containsSub needle rest

/-- Index (in characters) of the first occurrence of a substring, if any
(Rust `str::find` returns the byte index; we only use it to split, so the
character index is the faithful counterpart on `List Char`). -/
def findSubIdx (needle : List Char) : List Char → Option Nat
  | [] => if needle.isPrefixOf [] then some 0 else none
  | c :: rest =>
    if needle.isPrefixOf (c :: rest) then some 0
    else (findSubIdx needle rest).map (· + 1)

/-- Split a list at every occurrence of a separator character
(Rust `str::split(sep)` — always yields at least one piece). -/
def splitOnChar (sep : Char) : List Char → List (List Char)
  | [] => [[]]
  | c :: rest =>
    if c = sep then [] :: splitOnChar sep rest
    else
      match splitOnChar sep rest with
      | [] => [[c]]
      | p :: ps => (c :: p) :: ps

/-- Rust `str::splitn(n, sep)`: at most `n` pieces, the last keeps the rest. -/
def splitnChar (n : Nat) (sep : Char) (s : List Char) : List (List Char) :=
  match n with
  | 0 => []
  | 1 => [s]
  | Nat.succ m =>
    match s with
    | [] => [[]]
    | c :: rest =>
      if c = sep then [] :: splitnChar m sep rest
      else
        match splitnChar (Nat.succ m) sep rest with
        | [] => [[c]]
        | p :: ps => (c :: p) :: ps

/-- Number of occurrences of a character (Rust `str::matches(c).count()`). -/
def countChar (sep : Char) (s : List Char) : Nat :=
  (s.filter (· = sep)).length

/-- Rust `str::replace("\r\n", "\n")`: non-overlapping left-to-right. -/
def replaceCrlf : List Char → List Char
  | '\r' :: '\n' :: rest => '\n' :: replaceCrlf rest
  | c :: rest => c :: replaceCrlf rest
  | [] => []

/-- Rust `str::replace('\r', "\n")`. -/
def replaceCr (s : List Char) : List Char :=
  s.map (fun c => if c = '\r' then '\n' else c)

/-- Rust `str::lines()`: split on `\n`, a final trailing newline produces no
empty last line, and a trailing `\r` is stripped from each line. -/
def rustLines (s : List Char) : List (List Char) :=
  if s = [] then []
  else
    let pieces := splitOnChar '\n' s
    let pieces := if s.getLast? = some '\n' then pieces.dropLast else pieces
    pieces.map (fun l => if l.getLast? = some '\r' then l.dropLast else l)

/-- Rust `str::split_once(sep)`. -/
def splitOnceChar (sep : Char) (s : List Char) : Option (List Char × List Char) :=
  (findSubIdx [sep] s).map (fun i => (s.take i, s.drop (i + 1)))

/-- Rust `str::rsplit_once(sep)`. -/
def rsplitOnceChar (sep : Char) (s : List Char) : Option (List Char × List Char) :=
  match splitOnceChar sep s.reverse with
  | none => none
  | some (a, b) => some (b.reverse, a.reverse)

/-- Count of non-overlapping occurrences of `"http"`
(Rust `content.matches("http").count()`). -/
def countHttp : List Char → Nat
  | 'h' :: 't' :: 't' :: 'p' :: rest => countHttp rest + 1
  | _ :: rest => countHttp rest
  | [] => 0

/-- Fuel-driven core of `trimEndMatches`; the fuel `s.length` suffices since
each step strictly shortens the list. -/
def trimEndMatchesAux (pat : List Char) : Nat → List Char → List Char
  | 0, s => s
  | fuel + 1, s =>
    if pat ≠ [] && pat.isSuffixOf s then
      trimEndMatchesAux pat fuel (s.take (s.length - pat.length))
    else s

/-- Rust `str::trim_end_matches(pat)`: repeatedly removes the suffix. -/
def trimEndMatches (pat : List Char) (s : List Char) : List Char :=
  trimEndMatchesAux pat s.length s

/-- Fuel-driven decimal digits; `fuel = n + 1` always suffices. -/
def natDigitsAux : Nat → Nat → List Char
  | 0, _ => []
  | fuel + 1, n =>
    if n < 10 then [Char.ofNat (0x30 + n)]
    else natDigitsAux fuel (n / 10) ++ [Char.ofNat (0x30 + n % 10)]

/-- Decimal rendering of a natural number (Rust's `Display` for unsigned
integers). -/
def natDigits (n : Nat) : List Char :=
  natDigitsAux (n + 1) n

/-- ASCII lowercase conversion, character-wise (Rust `str::to_lowercase`
restricted to the ASCII range; non-ASCII characters are kept, which is
faithful for every comparison against the ASCII-only cipher tables). -/
def asciiLower (s : List Char) : List Char :=
  s.map (fun c =>
    if 0x41 ≤ c.toNat && c.toNat ≤ 0x5A then Char.ofNat (c.toNat + 0x20) else c)

-- ============================================================================
-- Node data model (node.rs)
-- ============================================================================

/-- String-keyed insertion-ordered map entry list used to model `IndexMap`. -/
def indexInsert (k : List Char) (v : List Char) :
    List (List Char × List Char) → List (List Char × List Char)
  | [] => [(k, v)]
  | (k0, v0) :: rest =>
    if k0 = k then (k0, v) :: rest else (k0, v0) :: indexInsert k v rest

/-- `IndexMap::get`. -/
def indexGet (m : List (List Char × List Char)) (k : List Char) :
    Option (List Char) :=
  (m.find? (fun kv => kv.1 = k)).map (·.2)

/-- Collect an iterator of pairs into an `IndexMap` (first position kept,
last value wins on duplicate keys). -/
def indexCollect (l : List (List Char × List Char)) :
    List (List Char × List Char) :=
  l.foldl (fun m kv => indexInsert kv.1 kv.2 m) []

structure RealityOpts where
  public_key : List Char
  short_id : Option (List Char)
deriving Repr, DecidableEq

structure WsOpts where
  path : Option (List Char)
  headers : Option (List (List Char × List Char))
deriving Repr, DecidableEq

structure GrpcOpts where
  grpc_service_name : Option (List Char)
deriving Repr, DecidableEq

structure H2Opts where
  path : Option (List Char)
  host : Option (List (List Char))
deriving Repr, DecidableEq

structure VlessNode where
  name : List Char
  server : List Char
  port : Nat
  uuid : List Char
  flow : Option (List Char)
  network : List Char
  tls : Option Bool
  servername : Option (List Char)
  skip_cert_verify : Option Bool
  alpn : Option (List (List Char))
  reality_opts : Option RealityOpts
  ws_opts : Option WsOpts
  grpc_opts : Option GrpcOpts
  h2_opts : Option H2Opts
  client_fingerprint : Option (List Char)
  packet_encoding : Option (List Char)
deriving Repr, DecidableEq

structure VmessNode where
  name : List Char
  server : List Char
  port : Nat
  uuid : List Char
  alterId : Nat
  cipher : List Char
  network : Option (List Char)
  tls : Option Bool
  skip_cert_verify : Option Bool
  servername : Option (List Char)
  ws_opts : Option WsOpts
  h2_opts : Option H2Opts
  grpc_opts : Option GrpcOpts
deriving Repr, DecidableEq

structure ShadowsocksNode where
  name : List Char
  server : List Char
  port : Nat
  cipher : List Char
  password : List Char
  udp : Option Bool
  plugin : Option (List Char)
  plugin_opts : Option (List (List Char × List Char))
deriving Repr, DecidableEq

structure SsrNode where
  name : List Char
  server : List Char
  port : Nat
  cipher : List Char
  password : List Char
  protocol : List Char
  protocol_param : Option (List Char)
  obfs : List Char
  obfs_param : Option (List Char)
  group : Option (List Char)
deriving Repr, DecidableEq

structure TrojanNode where
  name : List Char
  server : List Char
  port : Nat
  password : List Char
  sni : Option (List Char)
  skip_cert_verify : Option Bool
  alpn : Option (List (List Char))
  network : Option (List Char)
  ws_opts : Option WsOpts
  grpc_opts : Option GrpcOpts
  client_fingerprint : Option (List Char)
deriving Repr, DecidableEq

structure HysteriaNode where
  name : List Char
  server : List Char
  port : Nat
  auth_str : Option (List Char)
  protocol : Option (List Char)
  up : Option (List Char)
  down : Option (List Char)
  obfs : Option (List Char)
  sni : Option (List Char)
  skip_cert_verify : Option Bool
  alpn : Option (List (List Char))
  fingerprint : Option (List Char)
deriving Repr, DecidableEq

structure Hysteria2Node where
  name : List Char
  server : List Char
  port : Nat
  password : List Char
  ports : Option (List Char)
  obfs : Option (List Char)
  obfs_password : Option (List Char)
  sni : Option (List Char)
  skip_cert_verify : Option Bool
  alpn : Option (List (List Char))
  fingerprint : Option (List Char)
  up : Option (List Char)
  down : Option (List Char)
deriving Repr, DecidableEq

structure TuicNode where
  name : List Char
  server : List Char
  port : Nat
  token : Option (List Char)
  uuid : Option (List Char)
  password : Option (List Char)
  sni : Option (List Char)
  skip_cert_verify : Option Bool
  alpn : Option (List (List Char))
  disable_sni : Option Bool
  reduce_rtt : Option Bool
  udp_relay_mode : Option (List Char)
  congestion_controller : Option (List Char)
deriving Repr, DecidableEq

structure WireGuardNode where
  name : List Char
  server : List Char
  port : Nat
  private_key : List Char
  public_key : List Char
  ip : Option (List Char)
  ipv6 : Option (List Char)
  pre_shared_key : Option (List Char)
  reserved : Option (List Nat)
  mtu : Option Nat
  dns : Option (List (List Char))
deriving Repr, DecidableEq

/-- The unified node enum of node.rs. -/
inductive Node where
  | vless (n : VlessNode)
  | vmess (n : VmessNode)
  | shadowsocks (n : ShadowsocksNode)
  | ssr (n : SsrNode)
  | trojan (n : TrojanNode)
  | hysteria (n : HysteriaNode)
  | hysteria2 (n : Hysteria2Node)
  | tuic (n : TuicNode)
  | wireGuard (n : WireGuardNode)
deriving Repr, DecidableEq

/-- `Node::name` (node.rs lines 27-39). -/
def Node.name : Node → List Char
  | .vless n => n.name
  | .vmess n => n.name
  | .shadowsocks n => n.name
  | .ssr n => n.name
  | .trojan n => n.name
  | .hysteria n => n.name
  | .hysteria2 n => n.name
  | .tuic n => n.name
  | .wireGuard n => n.name

/-- `Node::set_name` (node.rs lines 41-53). -/
def Node.set_name (node : Node) (name : List Char) : Node :=
  match node with
  | .vless n => .vless { n with name := name }
  | .vmess n => .vmess { n with name := name }
  | .shadowsocks n => .shadowsocks { n with name := name }
  | .ssr n => .ssr { n with name := name }
  | .trojan n => .trojan { n with name := name }
  | .hysteria n => .hysteria { n with name := name }
  | .hysteria2 n => .hysteria2 { n with name := name }
  | .tuic n => .tuic { n with name := name }
  | .wireGuard n => .wireGuard { n with name := name }

/-- `Node::dedup_key` (node.rs lines 70-82). -/
def Node.dedup_key : Node → List Char
  | .vless n => "vless:".data ++ n.server ++ [':'] ++ natDigits n.port ++ [':'] ++ n.uuid
  | .vmess n => "vmess:".data ++ n.server ++ [':'] ++ natDigits n.port ++ [':'] ++ n.uuid
  | .shadowsocks n =>
    "ss:".data ++ n.server ++ [':'] ++ natDigits n.port ++ [':'] ++ n.cipher
      ++ [':'] ++ n.password
  | .ssr n =>
    "ssr:".data ++ n.server ++ [':'] ++ natDigits n.port ++ [':'] ++ n.cipher
      ++ [':'] ++ n.password ++ [':'] ++ n.protocol
  | .trojan n =>
    "trojan:".data ++ n.server ++ [':'] ++ natDigits n.port ++ [':'] ++ n.password
  | .hysteria n =>
    "hy:".data ++ n.server ++ [':'] ++ natDigits n.port ++ [':']
      ++ (n.auth_str.getD [])
  | .hysteria2 n =>
    "hy2:".data ++ n.server ++ [':'] ++ natDigits n.port ++ [':'] ++ n.password
  | .tuic n =>
    "tuic:".data ++ n.server ++ [':'] ++ natDigits n.port ++ [':']
      ++ ((n.uuid.or n.token).getD [])
  | .wireGuard n =>
    "wg:".data ++ n.server ++ [':'] ++ natDigits n.port ++ [':'] ++ n.public_key

-- ============================================================================
-- Deduplication (filter.rs lines 94-102)
-- ============================================================================

/-- The loop of `deduplicate_nodes`: a `HashSet<String>` of seen keys is
modelled as the list of keys inserted so far. -/
def dedupGo (seen : List (List Char)) : List Node → List Node
  | [] => []
  | n :: rest =>
    if n.dedup_key ∈ seen then dedupGo seen rest
    else n :: dedupGo (n.dedup_key :: seen) rest

/-- `deduplicate_nodes` (filter.rs lines 96-102): keeps the first occurrence
of each `dedup_key`, preserving order. -/
def deduplicate_nodes (nodes : List Node) : List Node := dedupGo [] nodes

/-- The retained representative of a node in a list: the first element of
`deduplicate_nodes l` sharing its `dedup_key`. -/
def retainedRep (l : List Node) (n : Node) : Option Node :=
  (deduplicate_nodes l).find? (fun m => m.dedup_key = n.dedup_key)

-- ============================================================================
-- Rename (filter.rs lines 60-82) over an abstract regex engine
-- ============================================================================

/-- A compiled regex of the external `regex` crate, as used by filter.rs:
`is_match` for filtering and `replace_all` (haystack, replacement). -/
structure CompiledRegex where
  isMatch : List Char → Bool
  replaceAll : List Char → List Char → List Char

/-- The external `regex` crate: `Regex::new` either fails with an error
message or yields a compiled regex.  Theorems quantify over every engine. -/
structure RegexEngine where
  compile : List Char → Except (List Char) CompiledRegex

/-- Errors of error.rs (the variants used by the verified components). -/
inductive ConvertError where
  | fetchError (url : List Char) (reason : List Char)
  | base64DecodeError (msg : List Char)
  | urlParseError (msg : List Char)
  | iniParseError (msg : List Char)
  | yamlSerializeError (msg : List Char)
  | invalidNodeFormat (protocol : List Char) (reason : List Char)
  | invalidRegex (pattern : List Char) (reason : List Char)
  | unsupportedProtocol (scheme : List Char)
  | missingField (field : List Char) (context : List Char)
  | timeout (url : List Char)
  | internal (msg : List Char)
deriving Repr, DecidableEq

/-- `rename_nodes` (filter.rs lines 61-82), parameterized by the regex
engine. -/
def rename_nodes (eng : RegexEngine) (nodes : List Node)
    (find_pattern : List Char) (replace_with : List Char) :
    Except ConvertError (List Node) :=
  if find_pattern = [] then .ok nodes
  else
    match eng.compile find_pattern with
    | .error e => .error (.invalidRegex find_pattern e)
    | .ok re =>
      .ok (nodes.map (fun n => n.set_name (re.replaceAll n.name replace_with)))

-- ============================================================================
-- Properties of deduplication (claim C7)
-- ============================================================================

theorem dedupGo_sublist (seen : List (List Char)) (l : List Node) :
    (dedupGo seen l).Sublist l := by
  induction l generalizing seen with
  | nil => simp [dedupGo]
  | cons x rest ih =>
    simp only [dedupGo]
    split
    · exact (ih seen).cons x
    · exact (ih _).cons₂ x

theorem dedupGo_key_not_seen (seen : List (List Char)) (l : List Node) :
    ∀ x ∈ dedupGo seen l, x.dedup_key ∉ seen := by
  induction l generalizing seen with
  | nil => simp [dedupGo]
  | cons y rest ih =>
    intro x hx
    simp only [dedupGo] at hx
    by_cases hy : y.dedup_key ∈ seen
    · rw [if_pos hy] at hx
      exact ih seen x hx
    · rw [if_neg hy] at hx
      rcases List.mem_cons.mp hx with h1 | h2
      · subst h1; exact hy
      · intro hc
        exact (ih (y.dedup_key :: seen) x h2) (List.mem_cons_of_mem _ hc)

theorem dedupGo_pairwise (seen : List (List Char)) (l : List Node) :
    (dedupGo seen l).Pairwise (fun a b => a.dedup_key ≠ b.dedup_key) := by
  induction l generalizing seen with
  | nil => simp [dedupGo]
  | cons x rest ih =>
    simp only [dedupGo]
    split
    · exact ih seen
    · refine List.Pairwise.cons ?_ (ih _)
      intro y hy hk
      have := dedupGo_key_not_seen _ _ y hy
      exact this (by simp [hk])

theorem dedupGo_fixed (seen : List (List Char)) (l : List Node)
    (hnot : ∀ x ∈ l, x.dedup_key ∉ seen)
    (hpw : l.Pairwise (fun a b => a.dedup_key ≠ b.dedup_key)) :
    dedupGo seen l = l := by
  induction l generalizing seen with
  | nil => simp [dedupGo]
  | cons x rest ih =>
    have hx : x.dedup_key ∉ seen := hnot x (by simp)
    simp only [dedupGo, if_neg hx]
    have hpw' := List.Pairwise.of_cons hpw
    have hx' : ∀ y ∈ rest, x.dedup_key ≠ y.dedup_key :=
      fun y hy => List.rel_of_pairwise_cons hpw hy
    congr 1
    refine ih _ ?_ hpw'
    intro y hy
    intro hc
    rcases List.mem_cons.mp hc with hc1 | hc2
    · exact hx' y hy hc1.symm
    · exact hnot y (by simp [hy]) hc2

theorem dedupGo_find (seen : List (List Char)) (l : List Node)
    (k : List Char) (hk : k ∉ seen) :
    (dedupGo seen l).find? (fun m => m.dedup_key = k) =
      l.find? (fun m => m.dedup_key = k) := by
  induction l generalizing seen with
  | nil => simp [dedupGo]
  | cons x rest ih =>
    simp only [dedupGo]
    by_cases hx : x.dedup_key ∈ seen
    · rw [if_pos hx]
      have hne : ¬ (x.dedup_key = k) := fun h => hk (h ▸ hx)
      rw [List.find?_cons_of_neg _ (by simpa using hne), ih seen hk]
    · rw [if_neg hx]
      by_cases hek : x.dedup_key = k
      · rw [List.find?_cons_of_pos _ (by simpa using hek),
          List.find?_cons_of_pos _ (by simpa using hek)]
      · rw [List.find?_cons_of_neg _ (by simpa using hek),
          List.find?_cons_of_neg _ (by simpa using hek)]
        refine ih _ ?_
        intro hc
        rcases List.mem_cons.mp hc with h1 | h2
        · exact hek (h1.symm)
        · exact hk h2

theorem retainedRep_eq_find (l : List Node) (n : Node) :
    retainedRep l n = l.find? (fun m => m.dedup_key = n.dedup_key) := by
  unfold retainedRep deduplicate_nodes
  exact dedupGo_find [] l n.dedup_key (by simp)

theorem find_key_isSome (l : List Node) (a : Node) (ha : a ∈ l) :
    ∃ r, l.find? (fun m => m.dedup_key = a.dedup_key) = some r ∧
      r.dedup_key = a.dedup_key := by
  have hs : (l.find? (fun m => m.dedup_key = a.dedup_key)).isSome := by
    rw [List.find?_isSome]
    exact ⟨a, ha, by simp⟩
  rcases Option.isSome_iff_exists.mp hs with ⟨r, hr⟩
  refine ⟨r, hr, ?_⟩
  have := List.find?_some hr
  simpa using this

/-- C7: `dedup(L)` is a subsequence of `L`; `dedup` is idempotent; two
members of `L` map to the same retained representative exactly when their
`dedup_key`s are equal; the representative is the first occurrence of the
key in `L` and is a member of `dedup(L)`. -/
theorem deduplicate_nodes_spec (L : List Node) :
    (deduplicate_nodes L).Sublist L ∧
    deduplicate_nodes (deduplicate_nodes L) = deduplicate_nodes L ∧
    ∀ a ∈ L, ∀ b ∈ L,
      ((retainedRep L a = retainedRep L b) ↔ a.dedup_key = b.dedup_key) ∧
      retainedRep L a = L.find? (fun m => m.dedup_key = a.dedup_key) ∧
      ∃ r, retainedRep L a = some r ∧ r ∈ deduplicate_nodes L := by
  refine ⟨dedupGo_sublist [] L, ?_, ?_⟩
  · exact dedupGo_fixed [] _ (by simp) (dedupGo_pairwise [] L)
  · intro a ha b hb
    have hmemdedup : a ∈ L → ∃ r, retainedRep L a = some r ∧
        r ∈ deduplicate_nodes L := by
      intro ha'
      rcases find_key_isSome L a ha' with ⟨r, hr, _⟩
      have h2 : retainedRep L a = some r := by
        rw [retainedRep_eq_find]; exact hr
      have h3 : (deduplicate_nodes L).find?
          (fun m => m.dedup_key = a.dedup_key) = some r := h2
      exact ⟨r, h2, List.mem_of_find?_eq_some h3⟩
    refine ⟨?_, retainedRep_eq_find L a, hmemdedup ha⟩
    constructor
    · intro heq
      rcases find_key_isSome L a ha with ⟨ra, hra, hka⟩
      rcases find_key_isSome L b hb with ⟨rb, hrb, hkb⟩
      rw [retainedRep_eq_find, retainedRep_eq_find, hra, hrb] at heq
      have : ra = rb := by injection heq
      rw [← hka, this, hkb]
    · intro hk
      rw [retainedRep_eq_find, retainedRep_eq_find, hk]

/-- Concrete Shadowsocks node used by witnesses. -/
def ssNodeA : Node :=
  .shadowsocks ⟨"a".data, "s".data, 1, "aes-256-gcm".data, "p".data,
    some true, none, none⟩

/-- Same endpoint and credential as `ssNodeA`, different display name. -/
def ssNodeB : Node :=
  .shadowsocks ⟨"b".data, "s".data, 1, "aes-256-gcm".data, "p".data,
    some true, none, none⟩

theorem deduplicate_nodes_spec_witness :
    retainedRep [ssNodeA, ssNodeB] ssNodeA =
      retainedRep [ssNodeA, ssNodeB] ssNodeB :=
  (((deduplicate_nodes_spec [ssNodeA, ssNodeB]).2.2 ssNodeA (by decide)
      ssNodeB (by decide)).1).mpr (by decide)

-- ============================================================================
-- Frame property of renaming (claim C10)
-- ============================================================================

theorem Node.set_name_self (n : Node) : n.set_name n.name = n := by
  cases n <;> rfl

/-- C10: for every behaviour of the regex engine, a successful
`rename_nodes` preserves the length and order of the list and changes at
most the `name` field of each node; with an empty pattern the list is
returned entirely unchanged. -/
theorem rename_nodes_frame (eng : RegexEngine) (nodes : List Node)
    (pat rep : List Char) (res : List Node)
    (h : rename_nodes eng nodes pat rep = .ok res) :
    res.length = nodes.length ∧
    (∀ i (hi : i < nodes.length) (hir : i < res.length),
      ∃ nm, res.get ⟨i, hir⟩ = (nodes.get ⟨i, hi⟩).set_name nm) ∧
    (pat = [] → res = nodes) := by
  unfold rename_nodes at h
  by_cases hp : pat = []
  · rw [if_pos hp] at h
    have : nodes = res := by injection h
    subst this
    refine ⟨rfl, ?_, fun _ => rfl⟩
    intro i hi hir
    exact ⟨(nodes.get ⟨i, hi⟩).name, (Node.set_name_self _).symm⟩
  · rw [if_neg hp] at h
    cases hc : eng.compile pat with
    | error e => rw [hc] at h; cases h
    | ok re =>
      rw [hc] at h
      have hres : nodes.map (fun n => n.set_name (re.replaceAll n.name rep))
          = res := by injection h
      subst hres
      refine ⟨List.length_map _ _, ?_, fun he => absurd he hp⟩
      intro i hi hir
      refine ⟨re.replaceAll (nodes.get ⟨i, hi⟩).name rep, ?_⟩
      simp [List.get_eq_getElem, List.getElem_map]

/-- A trivial regex engine: everything matches, replacement is identity. -/
def idRegexEngine : RegexEngine :=
  ⟨fun _ => .ok ⟨fun _ => true, fun s _ => s⟩⟩

theorem rename_nodes_frame_witness :
    ∃ nm, ([ssNodeA] : List Node).get ⟨0, by decide⟩ =
      (([ssNodeA] : List Node).get ⟨0, by decide⟩).set_name nm :=
  (rename_nodes_frame idRegexEngine [ssNodeA] ['x'] ['y'] [ssNodeA]
    (by rfl)).2.1 0 (by decide) (by decide)

-- ============================================================================
-- Byte-indexed slicing (Rust `&s[i..]`), input cleaning (engine.rs 413-431)
-- ============================================================================

/-- Rust `&s[i..]`: byte-indexed slicing.  Returns the panic message when the
index is out of bounds or not on a character boundary, exactly as Rust
panics. -/
def byteSliceFrom : List Char → Nat → Except (List Char) (List Char)
  | s, 0 => .ok s
  | [], _ + 1 => .error "byte index out of bounds".data
  | c :: rest, i + 1 =>
    if utf8Size c ≤ i + 1 then byteSliceFrom rest (i + 1 - utf8Size c)
    else .error "byte index is not a char boundary".data

/-- The decoded UTF-8 byte-order-mark character. -/
def bomChar : Char := '﻿'

/-- The raw BOM bytes read as Latin-1: U+00EF U+00BB U+00BF. -/
def rawBomChars : List Char := ['ï', '»', '¿']

/-- `clean_input` (engine.rs lines 414-431): remove BOM (decoded and raw
forms, each by slicing off three bytes), normalize line endings, trim.  The
error case is a Rust panic. -/
def clean_input (content : List Char) : Except (List Char) (List Char) := do
  let c1 ←
    if content.head? = some bomChar then byteSliceFrom content 3
    else Except.ok content
  let c2 ←
    if rawBomChars.isPrefixOf c1 then byteSliceFrom c1 3
    else Except.ok c1
  Except.ok (rustTrim (replaceCr (replaceCrlf c2)))

-- ============================================================================
-- Base64 (the `base64` crate engines used by parser.rs and engine.rs)
-- ============================================================================

/-- Standard alphabet value of a base64 symbol. -/
def b64ValStd (c : Char) : Option Nat :=
  let n := c.toNat
  if 0x41 ≤ n && n ≤ 0x5A then some (n - 0x41)
  else if 0x61 ≤ n && n ≤ 0x7A then some (n - 0x61 + 26)
  else if 0x30 ≤ n && n ≤ 0x39 then some (n - 0x30 + 52)
  else if c = '+' then some 62
  else if c = '/' then some 63
  else none

/-- URL-safe alphabet value of a base64 symbol. -/
def b64ValUrl (c : Char) : Option Nat :=
  let n := c.toNat
  if 0x41 ≤ n && n ≤ 0x5A then some (n - 0x41)
  else if 0x61 ≤ n && n ≤ 0x7A then some (n - 0x61 + 26)
  else if 0x30 ≤ n && n ≤ 0x39 then some (n - 0x30 + 52)
  else if c = '-' then some 62
  else if c = '_' then some 63
  else none

/-- Base64 decoding with required canonical padding (the crate's `STANDARD`
and `URL_SAFE` engines: length a multiple of four, `=` only at the end, zero
trailing bits). -/
def b64DecodePadded (val : Char → Option Nat) : List Char → Option (List Nat)
  | [] => some []
  | a :: b :: c :: d :: rest =>
    if rest = [] then
      match val a, val b with
      | some va, some vb =>
        if c = '=' then
          if d = '=' then
            if vb % 16 = 0 then some [va * 4 + vb / 16] else none
          else none
        else
          match val c with
          | some vc =>
            if d = '=' then
              if vc % 4 = 0 then
                some [va * 4 + vb / 16, (vb % 16) * 16 + vc / 4]
              else none
            else
              match val d with
              | some vd =>
                some [va * 4 + vb / 16, (vb % 16) * 16 + vc / 4,
                  (vc % 4) * 64 + vd]
              | none => none
          | none => none
      | _, _ => none
    else
      match val a, val b, val c, val d with
      | some va, some vb, some vc, some vd =>
        (b64DecodePadded val rest).map
          (fun tail => (va * 4 + vb / 16) :: ((vb % 16) * 16 + vc / 4) ::
            ((vc % 4) * 64 + vd) :: tail)
      | _, _, _, _ => none
  | _ => none

/-- Base64 decoding with no padding allowed (the crate's `URL_SAFE_NO_PAD`
engine; zero trailing bits required). -/
def b64DecodeNoPad (val : Char → Option Nat) : List Char → Option (List Nat)
  | [] => some []
  | [_] => none
  | [a, b] =>
    match val a, val b with
    | some va, some vb =>
      if vb % 16 = 0 then some [va * 4 + vb / 16] else none
    | _, _ => none
  | [a, b, c] =>
    match val a, val b, val c with
    | some va, some vb, some vc =>
      if vc % 4 = 0 then some [va * 4 + vb / 16, (vb % 16) * 16 + vc / 4]
      else none
    | _, _, _ => none
  | a :: b :: c :: d :: rest =>
    match val a, val b, val c, val d with
    | some va, some vb, some vc, some vd =>
      (b64DecodeNoPad val rest).map
        (fun tail => (va * 4 + vb / 16) :: ((vb % 16) * 16 + vc / 4) ::
          ((vc % 4) * 64 + vd) :: tail)
    | _, _, _, _ => none

/-- Characters stripped before decoding (`.replace(['\n','\r',' '], "")`). -/
def stripB64Ws (s : List Char) : List Char :=
  s.filter (fun c => !(c = '\n' || c = '\r' || c = ' '))

/-- The decode chain shared by `decode_base64_flexible` (parser.rs 94-110)
and the inline decoding of `decode_subscription_body` (engine.rs 460-475):
STANDARD, URL_SAFE, URL_SAFE_NO_PAD, then with synthesized padding STANDARD
and URL_SAFE. -/
def b64FlexOpt (encoded : List Char) : Option (List Nat) :=
  let encoded := stripB64Ws encoded
  match b64DecodePadded b64ValStd encoded with
  | some b => some b
  | none =>
    match b64DecodePadded b64ValUrl encoded with
    | some b => some b
    | none =>
      match b64DecodeNoPad b64ValUrl encoded with
      | some b => some b
      | none =>
        let padded :=
          if encoded.length % 4 = 2 then encoded ++ "==".data
          else if encoded.length % 4 = 3 then encoded ++ "=".data
          else encoded
        match b64DecodePadded b64ValStd padded with
        | some b => some b
        | none => b64DecodePadded b64ValUrl padded

/-- `decode_base64_flexible` (parser.rs lines 94-110). -/
def decode_base64_flexible (encoded : List Char) :
    Except ConvertError (List Nat) :=
  match b64FlexOpt encoded with
  | some b => .ok b
  | none => .error (.base64DecodeError "invalid base64".data)

-- ============================================================================
-- UTF-8 (Rust `String::from_utf8` / `String::from_utf8_lossy`)
-- ============================================================================

/-- A UTF-8 continuation byte. -/
def isContByte (b : Nat) : Bool := 0x80 ≤ b && b ≤ 0xBF

/-- Strict UTF-8 decoding (RFC 3629 ranges, as `String::from_utf8`). -/
def utf8Decode : List Nat → Option (List Char)
  | [] => some []
  | b :: rest =>
    if b < 0x80 then (utf8Decode rest).map (Char.ofNat b :: ·)
    else if 0xC2 ≤ b && b ≤ 0xDF then
      match rest with
      | b2 :: rest2 =>
        if isContByte b2 then
          (utf8Decode rest2).map
            (Char.ofNat ((b - 0xC0) * 64 + (b2 - 0x80)) :: ·)
        else none
      | [] => none
    else if 0xE0 ≤ b && b ≤ 0xEF then
      match rest with
      | b2 :: b3 :: rest3 =>
        let lo2 := if b = 0xE0 then 0xA0 else 0x80
        let hi2 := if b = 0xED then 0x9F else 0xBF
        if (lo2 ≤ b2 && b2 ≤ hi2) && isContByte b3 then
          (utf8Decode rest3).map
            (Char.ofNat ((b - 0xE0) * 4096 + (b2 - 0x80) * 64 + (b3 - 0x80)) :: ·)
        else none
      | _ => none
    else if 0xF0 ≤ b && b ≤ 0xF4 then
      match rest with
      | b2 :: b3 :: b4 :: rest4 =>
        let lo2 := if b = 0xF0 then 0x90 else 0x80
        let hi2 := if b = 0xF4 then 0x8F else 0xBF
        if (lo2 ≤ b2 && b2 ≤ hi2) && isContByte b3 && isContByte b4 then
          (utf8Decode rest4).map
            (Char.ofNat ((b - 0xF0) * 262144 + (b2 - 0x80) * 4096 +
              (b3 - 0x80) * 64 + (b4 - 0x80)) :: ·)
        else none
      | _ => none
    else none

/-- Fuel-driven core of the lossy UTF-8 decoder; every step consumes at
least one byte, so `fuel = length` suffices. -/
def utf8LossyAux : Nat → List Nat → List Char
  | 0, _ => []
  | _ + 1, [] => []
  | fuel + 1, b :: rest =>
    if b < 0x80 then Char.ofNat b :: utf8LossyAux fuel rest
    else if 0xC2 ≤ b && b ≤ 0xDF then
      match rest with
      | b2 :: rest2 =>
        if isContByte b2 then
          Char.ofNat ((b - 0xC0) * 64 + (b2 - 0x80)) :: utf8LossyAux fuel rest2
        else '�' :: utf8LossyAux fuel rest
      | [] => ['�']
    else if 0xE0 ≤ b && b ≤ 0xEF then
      match rest with
      | b2 :: rest2 =>
        let lo2 := if b = 0xE0 then 0xA0 else 0x80
        let hi2 := if b = 0xED then 0x9F else 0xBF
        if lo2 ≤ b2 && b2 ≤ hi2 then
          match rest2 with
          | b3 :: rest3 =>
            if isContByte b3 then
              Char.ofNat ((b - 0xE0) * 4096 + (b2 - 0x80) * 64 + (b3 - 0x80)) ::
                utf8LossyAux fuel rest3
            else '�' :: utf8LossyAux fuel rest2
          | [] => ['�']
        else '�' :: utf8LossyAux fuel rest
      | [] => ['�']
    else if 0xF0 ≤ b && b ≤ 0xF4 then
      match rest with
      | b2 :: rest2 =>
        let lo2 := if b = 0xF0 then 0x90 else 0x80
        let hi2 := if b = 0xF4 then 0x8F else 0xBF
        if lo2 ≤ b2 && b2 ≤ hi2 then
          match rest2 with
          | b3 :: rest3 =>
            if isContByte b3 then
              match rest3 with
              | b4 :: rest4 =>
                if isContByte b4 then
                  Char.ofNat ((b - 0xF0) * 262144 + (b2 - 0x80) * 4096 +
                    (b3 - 0x80) * 64 + (b4 - 0x80)) :: utf8LossyAux fuel rest4
                else '�' :: utf8LossyAux fuel rest3
              | [] => ['�']
            else '�' :: utf8LossyAux fuel rest2
          | [] => ['�']
        else '�' :: utf8LossyAux fuel rest
      | [] => ['�']
    else '�' :: utf8LossyAux fuel rest

/-- Lossy UTF-8 decoding (`String::from_utf8_lossy`): each maximal invalid
subpart is replaced by U+FFFD. -/
def utf8Lossy (bytes : List Nat) : List Char :=
  utf8LossyAux bytes.length bytes

/-- Propositional equality on `Except` is decidable when it is on both
components. -/
instance exceptDecEq {ε α : Type} [DecidableEq ε] [DecidableEq α] :
    DecidableEq (Except ε α)
  | .ok a, .ok b =>
    if h : a = b then .isTrue (by rw [h])
    else .isFalse (by intro hc; injection hc; contradiction)
  | .error a, .error b =>
    if h : a = b then .isTrue (by rw [h])
    else .isFalse (by intro hc; injection hc; contradiction)
  | .ok _, .error _ => .isFalse (by intro hc; cases hc)
  | .error _, .ok _ => .isFalse (by intro hc; cases hc)

-- ============================================================================
-- Subscription body auto-decoding (engine.rs lines 433-488)
-- ============================================================================

/-- A character of the combined base64 alphabets plus `=`
(`is_ascii_alphanumeric() || '+' || '/' || '=' || '-' || '_'`). -/
def isB64Char (c : Char) : Bool :=
  isAsciiAlnum c || c = '+' || c = '/' || c = '=' || c = '-' || c = '_'

/-- `decode_subscription_body` (engine.rs lines 435-488).  The error case is
a Rust panic propagated from `clean_input`. -/
def decode_subscription_body (body : List Char) :
    Except (List Char) (List Char) := do
  let body ← clean_input body
  let is_likely_base64 :=
    !containsSub "://".data body &&
    !body.contains '\n' &&
    decide (20 < byteLen body) &&
    body.all isB64Char
  let lines_all_base64 :=
    (rustLines body).all (fun line =>
      let line := rustTrim line
      line.isEmpty || (!containsSub "://".data line && line.all isB64Char))
  if is_likely_base64 || (decide ((rustLines body).length = 1) && lines_all_base64) then
    match b64FlexOpt body with
    | some bytes =>
      match utf8Decode bytes with
      | some s => clean_input s
      | none => Except.ok body
    | none => Except.ok body
  else Except.ok body

/-- Modelled from the spec (§4.1 base64 auto-detection): a body qualifies if
it contains no `://`, its characters are all in the union of the standard and
URL-safe base64 alphabets plus `=` (read per line, as the spec's own
multi-line clause requires), and either it is a single line of at least 20
characters or all of its non-empty lines pass the alphabet test. -/
def specBase64Qualifies (body : List Char) : Bool :=
  !containsSub "://".data body &&
  (rustLines body).all (fun l => l.all isB64Char) &&
  ((decide ((rustLines body).length = 1) && decide (20 ≤ byteLen body)) ||
    (rustLines body).all (fun l =>
      rustTrim l = [] || (rustTrim l).all isB64Char))

/-- The two-line body whose every line is base64: the spec says it must be
decoded, the code leaves it unchanged. -/
def multilineB64Body : List Char := "dmxlc3M6Ly9h\nc3M6Ly9i".data

/-- C3 (code bug): a multi-line body that qualifies for base64
auto-detection under the spec — and which the decode chain could actually
decode — is returned unchanged by `decode_subscription_body`, because the
guard at engine.rs line 458 demands `body.lines().count() == 1`, although
the comment above `lines_all_base64` (engine.rs line 449) announces the
multi-line check. -/
theorem decode_subscription_body_multiline_kept :
    decode_subscription_body multilineB64Body = .ok multilineB64Body ∧
    specBase64Qualifies multilineB64Body = true ∧
    (b64FlexOpt multilineB64Body).isSome = true := by
  refine ⟨by decide, by decide, by decide⟩

-- ============================================================================
-- Claim C9: clean_input on the raw BOM bytes
-- ============================================================================

/-- C9 (code bug): `clean_input` is not total — on an input starting with
the three decoded characters U+00EF U+00BB U+00BF, the slice `content[3..]`
at engine.rs line 423 falls in the middle of the two-byte UTF-8 encoding of
U+00BB and panics instead of removing the BOM. -/
theorem clean_input_raw_bom_panics :
    clean_input (rawBomChars ++ "test".data) =
      .error "byte index is not a char boundary".data := by
  decide

/-- The decoded-BOM branch of `clean_input` behaves: the three-byte slice is
exactly the U+FEFF character. -/
theorem clean_input_decoded_bom :
    clean_input (bomChar :: "test".data) = .ok "test".data := by
  decide

-- ============================================================================
-- Claim C5: rule-provider name derivation (clash_config.rs lines 904-928)
-- ============================================================================

/-- `url.rsplit('/').next()`: the final path segment. -/
def lastSegment (url : List Char) : List Char :=
  (splitOnChar '/' url).getLastD []

/-- The chain of `trim_end_matches` calls of `derive_provider_name`. -/
def strippedSegment (url : List Char) : List Char :=
  trimEndMatches ".mrs".data
    (trimEndMatches ".txt".data
      (trimEndMatches ".yaml".data
        (trimEndMatches ".list".data (lastSegment url))))

/-- Sanitization: keep `[A-Za-z0-9_-]`, replace anything else with `-`. -/
def sanitizeChar (c : Char) : Char :=
  if isAsciiAlnum c || c = '-' || c = '_' then c else '-'

/-- `derive_provider_name` (clash_config.rs lines 904-928). -/
def derive_provider_name (url : List Char) (index : Nat) : List Char :=
  let name := strippedSegment url
  if name ≠ [] ∧ byteLen name ≤ 50 then name.map sanitizeChar
  else "provider-".data ++ natDigits index

/-- C5 (amended): the derived name is the sanitized stripped final path
segment when that segment is non-empty and at most 50 bytes long; when the
segment is empty or longer than 50 bytes the name falls back to
`provider-<index>` (a long segment is not truncated). -/
theorem derive_provider_name_spec (url : List Char) (index : Nat) :
    (strippedSegment url ≠ [] ∧ byteLen (strippedSegment url) ≤ 50 →
      derive_provider_name url index = (strippedSegment url).map sanitizeChar) ∧
    (strippedSegment url = [] ∨ 50 < byteLen (strippedSegment url) →
      derive_provider_name url index = "provider-".data ++ natDigits index) := by
  constructor
  · intro h
    simp only [derive_provider_name, if_pos h]
  · intro h
    have hneg : ¬ (strippedSegment url ≠ [] ∧ byteLen (strippedSegment url) ≤ 50) := by
      rcases h with h1 | h2
      · intro hc; exact hc.1 h1
      · intro hc; omega
    simp only [derive_provider_name, if_neg hneg]

theorem derive_provider_name_spec_witness :
    derive_provider_name "https://x.com/cn.list".data 0 =
      (strippedSegment "https://x.com/cn.list".data).map sanitizeChar :=
  (derive_provider_name_spec "https://x.com/cn.list".data 0).1 (by decide)

/-- A URL whose final segment is 51 characters long (no known extension). -/
def longSegmentUrl : List Char := "https://e.com/".data ++ List.replicate 51 'a'

/-- C5 counterexample: the claim says a non-empty stripped segment is kept
(up to 50 characters) and only an empty segment yields `provider-<index>`;
but for a 51-character segment the code falls back to `provider-7` instead
of the truncated 50-character name. -/
theorem derive_provider_name_counterexample :
    strippedSegment longSegmentUrl ≠ [] ∧
    derive_provider_name longSegmentUrl 7 = "provider-7".data ∧
    derive_provider_name longSegmentUrl 7 ≠
      (List.replicate 50 'a').map sanitizeChar := by
  refine ⟨by decide, by decide, by decide⟩

-- ============================================================================
-- Claim C6: proxy-group key ordering (clash_config.rs lines 1101-1181)
-- ============================================================================

/-- Model of `serde_yaml::Value` (the cases this program constructs). -/
inductive Yaml where
  | str (s : List Char)
  | num (n : Nat)
  | bool (b : Bool)
  | null
  | seq (items : List Yaml)
  | map (entries : List (Yaml × Yaml))

/-- Whether a YAML value is the string key `k` (used for `Mapping::get` with
a `Value::String` key). -/
def yamlStrKeyIs (k : List Char) : Yaml → Bool
  | .str s => s = k
  | _ => false

/-- `serde_yaml::Mapping::get` with a string key (keys are unique in a
mapping; first match). -/
def mapGet (m : List (Yaml × Yaml)) (k : List Char) : Option Yaml :=
  (m.find? (fun kv => yamlStrKeyIs k kv.1)).map (·.2)

/-- The double-quote character. -/
def dq : Char := Char.ofNat 0x22

/-- The single-quote character. -/
def sq : Char := Char.ofNat 0x27

/-- The escaping of `format_yaml_value_simple`:
`.replace('\\', "\\\\").replace('"', "\\\"")`. -/
def escapeYaml (s : List Char) : List Char :=
  (s.flatMap (fun c => if c = '\\' then ['\\', '\\'] else [c])).flatMap
    (fun c => if c = dq then ['\\', dq] else [c])

/-- The quoting condition of `format_yaml_value_simple`
(clash_config.rs lines 1153-1167). -/
def fmtSimpleNeedsQuote (s : List Char) : Bool :=
  s.contains ':' || s.contains '#' || s.contains '\n' ||
  s.head? = some ' ' || s.getLast? = some ' ' ||
  s.head? = some dq || s.head? = some sq ||
  s.head? = some '[' || s.head? = some '{' ||
  s = "true".data || s = "false".data || s = "null".data || s.isEmpty

/-- `format_yaml_value_simple` (clash_config.rs lines 1150-1181).  The
sequence/mapping fallback calls `serde_yaml::to_string`; this program never
evaluates that branch (groups and their scalar test parameters are emitted
from the structured paths above), so it is modelled as the empty rendering. -/
def format_yaml_value_simple : Yaml → List Char
  | .str s =>
    if fmtSimpleNeedsQuote s then dq :: escapeYaml s ++ [dq] else s
  | .num n => natDigits n
  | .bool b => if b then "true".data else "false".data
  | .null => "null".data
  | .seq _ => []
  | .map _ => []

/-- A scalar segment of `format_group_yaml`: nothing when the key is absent,
`pre ++ value ++ "\n"` when present. -/
def groupScalarSeg (pre : List Char) (v : Option Yaml) : List Char :=
  match v with
  | none => []
  | some x => pre ++ format_yaml_value_simple x ++ ['\n']

/-- The proxies segment of `format_group_yaml` (emitted only when the value
is a sequence). -/
def groupProxiesSeg (v : Option Yaml) : List Char :=
  match v with
  | some (.seq items) =>
    "    proxies:\n".data ++
      items.flatMap (fun it => "      - ".data ++ format_yaml_value_simple it ++ ['\n'])
  | _ => []

/-- `format_group_yaml` (clash_config.rs lines 1103-1147): the group keys
are re-emitted in the fixed order name, type, url, interval, timeout,
tolerance, proxies regardless of their order in the mapping.  (The Rust
signature returns `Result` but the function never errors.) -/
def format_group_yaml : Yaml → List Char
  | .map m =>
    groupScalarSeg "  - name: ".data (mapGet m "name".data) ++
    groupScalarSeg "    type: ".data (mapGet m "type".data) ++
    groupScalarSeg "    url: ".data (mapGet m "url".data) ++
    groupScalarSeg "    interval: ".data (mapGet m "interval".data) ++
    groupScalarSeg "    timeout: ".data (mapGet m "timeout".data) ++
    groupScalarSeg "    tolerance: ".data (mapGet m "tolerance".data) ++
    groupProxiesSeg (mapGet m "proxies".data)
  | _ => []

-- Verification-side observers of the emitted block -------------------------

/-- The key a line of an emitted group block carries: item lines (six spaces
of indentation) carry none; `"  - key: …"` and `"    key: …"` lines carry
`key`. -/
def lineKeyOf : List Char → Option (List Char)
  | ' ' :: ' ' :: ' ' :: ' ' :: ' ' :: ' ' :: _ => none
  | ' ' :: ' ' :: '-' :: ' ' :: rest => some (rest.takeWhile (· ≠ ':'))
  | ' ' :: ' ' :: ' ' :: ' ' :: rest => some (rest.takeWhile (· ≠ ':'))
  | _ => none

/-- The ordered key sequence of an emitted group block. -/
def keysOfGroupYaml (out : List Char) : List (List Char) :=
  (splitOnChar '\n' out).filterMap lineKeyOf

/-- A scalar YAML value without embedded newline. -/
def scalarNoNl : Yaml → Bool
  | .str s => decide ('\n' ∉ s)
  | .num _ => true
  | .bool _ => true
  | _ => false

/-- A sequence of newline-free scalars. -/
def seqOfScalars : Yaml → Bool
  | .seq items => items.all scalarNoNl
  | _ => false

/-- The emission order of group keys. -/
def groupKeyOrder : List (List Char) :=
  ["name".data, "type".data, "url".data, "interval".data,
   "timeout".data, "tolerance".data, "proxies".data]

-- Supporting lemmas ---------------------------------------------------------

theorem natDigitsAux_digits (fuel n : Nat) :
    ∀ c ∈ natDigitsAux fuel n, ∃ d, d < 10 ∧ c = Char.ofNat (0x30 + d) := by
  induction fuel generalizing n with
  | zero => intro c hc; simp [natDigitsAux] at hc
  | succ fuel ih =>
    intro c hc
    simp only [natDigitsAux] at hc
    split at hc
    · rcases List.mem_singleton.mp hc with rfl
      exact ⟨n, by omega, rfl⟩
    · rcases List.mem_append.mp hc with h1 | h2
      · exact ih (n / 10) c h1
      · rcases List.mem_singleton.mp h2 with rfl
        exact ⟨n % 10, Nat.mod_lt _ (by omega), rfl⟩

theorem natDigits_no_newline (n : Nat) : '\n' ∉ natDigits n := by
  intro hc
  rcases natDigitsAux_digits (n + 1) n '\n' hc with ⟨d, hd, he⟩
  interval_cases d <;> simp_all

theorem mem_escapeYaml (s : List Char) (c : Char) (hc : c ∈ escapeYaml s) :
    c = '\\' ∨ c = dq ∨ c ∈ s := by
  simp only [escapeYaml] at hc
  rcases List.mem_flatMap.mp hc with ⟨b, hb, hcb⟩
  rcases List.mem_flatMap.mp hb with ⟨a, ha, hba⟩
  have hb2 : b = '\\' ∨ b = a := by
    split_ifs at hba with h1
    · rcases List.mem_cons.mp hba with h | h
      · exact Or.inl h
      · exact Or.inl (List.mem_singleton.mp h)
    · exact Or.inr (List.mem_singleton.mp hba)
  have hc2 : c = '\\' ∨ c = b := by
    split_ifs at hcb with h2
    · rcases List.mem_cons.mp hcb with h | h
      · exact Or.inl h
      · exact Or.inr (h2 ▸ List.mem_singleton.mp h)
    · exact Or.inr (List.mem_singleton.mp hcb)
  rcases hc2 with rfl | rfl
  · exact Or.inl rfl
  · rcases hb2 with rfl | rfl
    · exact Or.inl rfl
    · exact Or.inr (Or.inr ha)

theorem fmt_simple_no_newline (v : Yaml) (h : scalarNoNl v = true) :
    '\n' ∉ format_yaml_value_simple v := by
  cases v with
  | str s =>
    have hs : '\n' ∉ s := of_decide_eq_true h
    simp only [format_yaml_value_simple]
    split
    · intro hc
      rcases List.mem_cons.mp hc with h1 | h1
      · exact absurd h1 (by decide)
      · rcases List.mem_append.mp h1 with h2 | h2
        · rcases mem_escapeYaml s '\n' h2 with h3 | h3 | h3
          · exact absurd h3 (by decide)
          · exact absurd h3 (by decide)
          · exact hs h3
        · exact absurd (List.mem_singleton.mp h2) (by decide)
    · exact hs
  | num n => exact natDigits_no_newline n
  | bool b => cases b <;> simp [format_yaml_value_simple]
  | null => simp [scalarNoNl] at h
  | seq items => simp [scalarNoNl] at h
  | map entries => simp [scalarNoNl] at h

/-- Concatenation of newline-terminated lines. -/
def renderLines (ls : List (List Char)) : List Char :=
  ls.flatMap (fun l => l ++ ['\n'])

theorem splitOnChar_line (sep : Char) (line rest : List Char)
    (h : sep ∉ line) :
    splitOnChar sep (line ++ sep :: rest) = line :: splitOnChar sep rest := by
  induction line with
  | nil => simp [splitOnChar]
  | cons c cs ih =>
    have hc : c ≠ sep := fun he => h (he ▸ List.mem_cons_self c cs)
    have hcs : sep ∉ cs := fun hm => h (List.mem_cons_of_mem c hm)
    have ih2 := ih hcs
    simp only [List.cons_append, splitOnChar, if_neg hc]
    show (match splitOnChar sep (cs ++ sep :: rest) with
      | [] => [[c]]
      | p :: ps => (c :: p) :: ps) = (c :: cs) :: splitOnChar sep rest
    rw [ih2]

theorem splitOnChar_renderLines (ls : List (List Char))
    (h : ∀ l ∈ ls, '\n' ∉ l) :
    splitOnChar '\n' (renderLines ls) = ls ++ [[]] := by
  induction ls with
  | nil => simp [renderLines, splitOnChar]
  | cons l ls ih =>
    have h1 : '\n' ∉ l := h l (by simp)
    have h2 : ∀ x ∈ ls, '\n' ∉ x := fun x hx => h x (by simp [hx])
    simp only [renderLines, List.flatMap_cons, List.append_assoc,
      List.singleton_append]
    rw [splitOnChar_line '\n' l _ h1]
    simp only [List.cons_append]
    congr 1
    exact ih h2

/-- The lines of a scalar segment. -/
def groupScalarLines (pre : List Char) (v : Option Yaml) : List (List Char) :=
  match v with
  | none => []
  | some x => [pre ++ format_yaml_value_simple x]

/-- The lines of the proxies segment. -/
def groupProxiesLines (v : Option Yaml) : List (List Char) :=
  match v with
  | some (.seq items) =>
    "    proxies:".data ::
      items.map (fun it => "      - ".data ++ format_yaml_value_simple it)
  | _ => []

theorem groupScalarSeg_render (pre : List Char) (v : Option Yaml) :
    groupScalarSeg pre v = renderLines (groupScalarLines pre v) := by
  cases v <;> simp [groupScalarSeg, groupScalarLines, renderLines]

theorem groupProxiesSeg_render (v : Option Yaml) :
    groupProxiesSeg v = renderLines (groupProxiesLines v) := by
  match v with
  | none => simp [groupProxiesSeg, groupProxiesLines, renderLines]
  | some (.str s) => simp [groupProxiesSeg, groupProxiesLines, renderLines]
  | some (.num n) => simp [groupProxiesSeg, groupProxiesLines, renderLines]
  | some (.bool b) => simp [groupProxiesSeg, groupProxiesLines, renderLines]
  | some .null => simp [groupProxiesSeg, groupProxiesLines, renderLines]
  | some (.map entries) => simp [groupProxiesSeg, groupProxiesLines, renderLines]
  | some (.seq items) =>
    simp only [groupProxiesSeg, groupProxiesLines, renderLines,
      List.flatMap_cons, List.map_cons]
    rw [List.flatMap_map]
    simp [Function.comp, List.append_assoc]

/-- All emitted lines of a group block. -/
def groupAllLines (m : List (Yaml × Yaml)) : List (List Char) :=
  groupScalarLines "  - name: ".data (mapGet m "name".data) ++
  groupScalarLines "    type: ".data (mapGet m "type".data) ++
  groupScalarLines "    url: ".data (mapGet m "url".data) ++
  groupScalarLines "    interval: ".data (mapGet m "interval".data) ++
  groupScalarLines "    timeout: ".data (mapGet m "timeout".data) ++
  groupScalarLines "    tolerance: ".data (mapGet m "tolerance".data) ++
  groupProxiesLines (mapGet m "proxies".data)

theorem format_group_yaml_render (m : List (Yaml × Yaml)) :
    format_group_yaml (.map m) = renderLines (groupAllLines m) := by
  simp only [format_group_yaml, groupAllLines, groupScalarSeg_render,
    groupProxiesSeg_render, renderLines, List.flatMap_append, List.append_assoc]

theorem keys_scalarLines (pre k : List Char) (v : Option Yaml)
    (h : ∀ t, lineKeyOf (pre ++ t) = some k) :
    (groupScalarLines pre v).filterMap lineKeyOf =
      if v.isSome then [k] else [] := by
  cases v with
  | none => rfl
  | some x => simp [groupScalarLines, List.filterMap, h]

theorem keys_proxiesLines (v : Option Yaml)
    (h : Option.all seqOfScalars v = true) :
    (groupProxiesLines v).filterMap lineKeyOf =
      if v.isSome then ["proxies".data] else [] := by
  cases v with
  | none => rfl
  | some x =>
    cases x with
    | seq items =>
      simp only [groupProxiesLines, Option.isSome_some, if_true]
      rw [List.filterMap_cons_some
        (show lineKeyOf "    proxies:".data = some "proxies".data from rfl)]
      congr 1
      rw [List.filterMap_map]
      exact List.filterMap_eq_nil_iff.mpr (fun a _ => rfl)
    | str s => simp [Option.all, seqOfScalars] at h
    | num n => simp [Option.all, seqOfScalars] at h
    | bool b => simp [Option.all, seqOfScalars] at h
    | null => simp [Option.all, seqOfScalars] at h
    | map entries => simp [Option.all, seqOfScalars] at h

theorem noNl_scalarLines (pre : List Char) (v : Option Yaml)
    (hpre : '\n' ∉ pre) (hv : Option.all scalarNoNl v = true) :
    ∀ l ∈ groupScalarLines pre v, '\n' ∉ l := by
  intro l hl
  cases v with
  | none => simp [groupScalarLines] at hl
  | some x =>
    simp only [groupScalarLines, List.mem_singleton] at hl
    subst hl
    intro hc
    rcases List.mem_append.mp hc with h | h
    · exact hpre h
    · exact fmt_simple_no_newline x (by simpa [Option.all] using hv) h

theorem noNl_proxiesLines (v : Option Yaml)
    (hv : Option.all seqOfScalars v = true) :
    ∀ l ∈ groupProxiesLines v, '\n' ∉ l := by
  intro l hl
  cases v with
  | none => simp [groupProxiesLines] at hl
  | some x =>
    cases x with
    | seq items =>
      simp only [groupProxiesLines] at hl
      rcases List.mem_cons.mp hl with h1 | h1
      · subst h1; decide
      · rcases List.mem_map.mp h1 with ⟨it, hit, he⟩
        subst he
        have hsc : scalarNoNl it = true := by
          have : items.all scalarNoNl = true := by
            simpa [Option.all, seqOfScalars] using hv
          exact (List.all_eq_true.mp this) it hit
        intro hc
        rcases List.mem_append.mp hc with h | h
        · exact absurd h (by decide)
        · exact fmt_simple_no_newline it hsc h
    | str s => simp [Option.all, seqOfScalars] at hv
    | num n => simp [Option.all, seqOfScalars] at hv
    | bool b => simp [Option.all, seqOfScalars] at hv
    | null => simp [Option.all, seqOfScalars] at hv
    | map entries => simp [Option.all, seqOfScalars] at hv

/-- C6: in every emitted proxy-group block, the keys appear in the order
name, type, then (when present) url, interval, timeout, tolerance, and the
proxies list comes last; moreover the output depends only on the values
bound to those seven keys, not on the order in which the group map was
assembled. -/
theorem format_group_yaml_spec (m : List (Yaml × Yaml))
    (hscal : (["name".data, "type".data, "url".data, "interval".data,
        "timeout".data, "tolerance".data].all
        (fun k => Option.all scalarNoNl (mapGet m k))) = true)
    (hprox : Option.all seqOfScalars (mapGet m "proxies".data) = true) :
    keysOfGroupYaml (format_group_yaml (.map m)) =
      groupKeyOrder.filter (fun k => (mapGet m k).isSome) ∧
    ∀ m₂, (∀ k ∈ groupKeyOrder, mapGet m₂ k = mapGet m k) →
      format_group_yaml (.map m₂) = format_group_yaml (.map m) := by
  have hs := List.all_eq_true.mp hscal
  have h1 := hs "name".data (by decide)
  have h2 := hs "type".data (by decide)
  have h3 := hs "url".data (by decide)
  have h4 := hs "interval".data (by decide)
  have h5 := hs "timeout".data (by decide)
  have h6 := hs "tolerance".data (by decide)
  constructor
  · have hnl : ∀ l ∈ groupAllLines m, '\n' ∉ l := by
      intro l hl
      simp only [groupAllLines, List.append_assoc, List.mem_append] at hl
      rcases hl with h | h | h | h | h | h | h
      · exact noNl_scalarLines _ _ (by decide) h1 l h
      · exact noNl_scalarLines _ _ (by decide) h2 l h
      · exact noNl_scalarLines _ _ (by decide) h3 l h
      · exact noNl_scalarLines _ _ (by decide) h4 l h
      · exact noNl_scalarLines _ _ (by decide) h5 l h
      · exact noNl_scalarLines _ _ (by decide) h6 l h
      · exact noNl_proxiesLines _ hprox l h
    unfold keysOfGroupYaml
    rw [format_group_yaml_render, splitOnChar_renderLines _ hnl,
      List.filterMap_append]
    have hke : ([([] : List Char)].filterMap lineKeyOf) = [] := rfl
    rw [hke, List.append_nil]
    simp only [groupAllLines, List.filterMap_append]
    rw [keys_scalarLines "  - name: ".data "name".data
        (mapGet m "name".data) (fun t => rfl),
      keys_scalarLines "    type: ".data "type".data
        (mapGet m "type".data) (fun t => rfl),
      keys_scalarLines "    url: ".data "url".data
        (mapGet m "url".data) (fun t => rfl),
      keys_scalarLines "    interval: ".data "interval".data
        (mapGet m "interval".data) (fun t => rfl),
      keys_scalarLines "    timeout: ".data "timeout".data
        (mapGet m "timeout".data) (fun t => rfl),
      keys_scalarLines "    tolerance: ".data "tolerance".data
        (mapGet m "tolerance".data) (fun t => rfl),
      keys_proxiesLines _ hprox]
    simp only [groupKeyOrder, List.filter_cons, List.filter_nil,
      List.append_assoc]
    have step : ∀ (b : Bool) (k : List Char) (r1 r2 : List (List Char)),
        r1 = r2 →
        ((if b then [k] else []) ++ r1) = (if b then k :: r2 else r2) := by
      intro b k r1 r2 h
      cases b <;> simp [h]
    refine step _ _ _ _ ?_
    refine step _ _ _ _ ?_
    refine step _ _ _ _ ?_
    refine step _ _ _ _ ?_
    refine step _ _ _ _ ?_
    refine step _ _ _ _ ?_
    rfl
  · intro m₂ h
    simp only [format_group_yaml]
    rw [h "name".data (by decide), h "type".data (by decide),
      h "url".data (by decide), h "interval".data (by decide),
      h "timeout".data (by decide), h "tolerance".data (by decide),
      h "proxies".data (by decide)]

/-- A group map assembled with `proxies` before the test parameters, as
`to_clash_proxy_groups` (ini_parser.rs lines 421-471) builds it. -/
def groupMapW : List (Yaml × Yaml) :=
  [(.str "name".data, .str "auto".data),
   (.str "type".data, .str "url-test".data),
   (.str "proxies".data, .seq [.str "a".data, .str "b".data]),
   (.str "url".data, .str "http://www.gstatic.com/generate_204".data),
   (.str "interval".data, .num 300)]

theorem format_group_yaml_spec_witness :
    keysOfGroupYaml (format_group_yaml (.map groupMapW)) =
      groupKeyOrder.filter (fun k => (mapGet groupMapW k).isSome) :=
  (format_group_yaml_spec groupMapW (by decide) (by decide)).1

-- ============================================================================
-- Percent decoding (`urlencoding` crate) and UTF-8 encoding
-- ============================================================================

/-- Hexadecimal digit value. -/
def hexVal (c : Char) : Option Nat :=
  let n := c.toNat
  if 0x30 ≤ n && n ≤ 0x39 then some (n - 0x30)
  else if 0x41 ≤ n && n ≤ 0x46 then some (n - 0x41 + 10)
  else if 0x61 ≤ n && n ≤ 0x66 then some (n - 0x61 + 10)
  else none

/-- UTF-8 encoding of one character. -/
def utf8EncodeChar (c : Char) : List Nat :=
  let n := c.toNat
  if n < 0x80 then [n]
  else if n < 0x800 then [0xC0 + n / 64, 0x80 + n % 64]
  else if n < 0x10000 then
    [0xE0 + n / 4096, 0x80 + n / 64 % 64, 0x80 + n % 64]
  else
    [0xF0 + n / 262144, 0x80 + n / 4096 % 64, 0x80 + n / 64 % 64,
      0x80 + n % 64]

/-- Percent-decoding to bytes: `%XX` becomes the byte, malformed `%`
sequences are kept verbatim (as the `urlencoding` crate does). -/
def percentDecodeBytes : List Char → List Nat
  | [] => []
  | '%' :: h1 :: h2 :: rest =>
    match hexVal h1, hexVal h2 with
    | some a, some b => (a * 16 + b) :: percentDecodeBytes rest
    | _, _ => utf8EncodeChar '%' ++ percentDecodeBytes (h1 :: h2 :: rest)
  | c :: rest => utf8EncodeChar c ++ percentDecodeBytes rest

/-- `url_decode` (parser.rs lines 1189-1193): percent-decode, fall back to
the original string when the result is not valid UTF-8. -/
def url_decode (s : List Char) : List Char :=
  match utf8Decode (percentDecodeBytes s) with
  | some t => t
  | none => s

/-- Form-urlencoded decoding used by `Url::query_pairs`: `+` is a space,
`%XX` is decoded, invalid UTF-8 is replaced lossily. -/
def formDecode (s : List Char) : List Char :=
  utf8Lossy (percentDecodeBytes (s.map (fun c => if c = '+' then ' ' else c)))

/-- `Url::query_pairs`: split on `&`, skip empty pieces, split each piece at
the first `=` (missing value becomes the empty string), form-decode both
sides. -/
def queryPairsOf (q : List Char) : List (List Char × List Char) :=
  (splitOnChar '&' q).filterMap (fun piece =>
    if piece = [] then none
    else
      match splitOnceChar '=' piece with
      | some (k, v) => some (formDecode k, formDecode v)
      | none => some (formDecode piece, []))

-- ============================================================================
-- Model of `url::Url` for the hierarchical `scheme://…` links this program
-- parses.  Userinfo, host and fragment are kept raw (percent-encoded), as
-- `username()` / `host_str()` / `fragment()` return them.
-- ============================================================================

structure UrlModel where
  scheme : List Char
  username : List Char
  password : Option (List Char)
  host : Option (List Char)
  port : Option Nat
  query : Option (List Char)
  fragment : Option (List Char)
deriving Repr, DecidableEq

/-- Digits-only natural number (`u16::from_str` without sign handling;
returns `none` on empty or non-digit input). -/
def natOfDigits (s : List Char) : Option Nat :=
  if s = [] || !s.all (fun c => 0x30 ≤ c.toNat && c.toNat ≤ 0x39) then none
  else some (s.foldl (fun acc c => acc * 10 + (c.toNat - 0x30)) 0)

/-- Parse `host[:port]` of an authority (WHATWG rules for non-special
schemes: brackets delimit IPv6, the part after the last `:` must be an
in-range port or empty). -/
def parseHostPort (hostport : List Char) :
    Option (List Char × Option Nat) :=
  if hostport.head? = some '[' then
    match findSubIdx "]".data hostport with
    | none => none
    | some j =>
      let host := hostport.take (j + 1)
      let after := hostport.drop (j + 1)
      if after = [] then some (host, none)
      else if after.head? = some ':' then
        let p := after.drop 1
        if p = [] then some (host, none)
        else
          match natOfDigits p with
          | some n => if n ≤ 65535 then some (host, some n) else none
          | none => none
      else none
  else
    match rsplitOnceChar ':' hostport with
    | none => some (hostport, none)
    | some (h, p) =>
      if p = [] then some (h, none)
      else
        match natOfDigits p with
        | some n => if n ≤ 65535 then some (h, some n) else none
        | none => none

/-- Model of `Url::parse` for `scheme://[userinfo@]host[:port][/path]
[?query][#fragment]` links (every link this program feeds to the crate). -/
def urlParse (s : List Char) : Option UrlModel :=
  match findSubIdx "://".data s with
  | none => none
  | some i =>
    let scheme := s.take i
    let rest := s.drop (i + 3)
    if scheme = [] then none
    else
      let (rest1, frag) :=
        match splitOnceChar '#' rest with
        | some (a, b) => (a, some b)
        | none => (rest, none)
      let (rest2, query) :=
        match splitOnceChar '?' rest1 with
        | some (a, b) => (a, some b)
        | none => (rest1, none)
      let authority := rest2.takeWhile (· ≠ '/')
      let (userinfo, hostport) :=
        match rsplitOnceChar '@' authority with
        | some (u, hp) => (some u, hp)
        | none => (none, authority)
      let (username, password) :=
        match userinfo with
        | none => ([], none)
        | some u =>
          match splitOnceChar ':' u with
          | some (a, b) => (a, some b)
          | none => (u, none)
      match parseHostPort hostport with
      | none => none
      | some (host, port) =>
        some ⟨scheme, username, password, some host, port, query, frag⟩

-- ============================================================================
-- VLESS parsing (parser.rs lines 145-256)
-- ============================================================================

/-- The query parameters collected into an `IndexMap` (later values
overwrite earlier ones for a duplicated key). -/
def urlQueryParams (url : UrlModel) : List (List Char × List Char) :=
  indexCollect (queryPairsOf (url.query.getD []))

/-- The `get_param` helper shared by the URL-based decoders: a non-empty
query parameter. -/
def getParamFn (params : List (List Char × List Char)) (k : List Char) :
    Option (List Char) :=
  match indexGet params k with
  | some v => if v = [] then none else some v
  | none => none

/-- The alpn splitting shared by the URL-based decoders: comma-split, trim,
drop empties, `none` when nothing is left. -/
def splitAlpn (v : List Char) : Option (List (List Char)) :=
  let list := ((splitOnChar ',' v).map rustTrim).filter (· ≠ [])
  if list = [] then none else some list

/-- The VLESS node before the Reality and transport steps
(parser.rs lines 188-206). -/
def mkVlessBase (params : List (List Char × List Char))
    (uuid server name : List Char) (port : Nat) (network security : List Char) :
    VlessNode :=
  { name := name
    server := server
    port := port
    uuid := uuid
    flow := getParamFn params "flow".data
    network := network
    tls := some (security = "tls".data ∨ security = "reality".data)
    servername := getParamFn params "sni".data
    skip_cert_verify := (indexGet params "allowInsecure".data).map
      (fun v => v = "1".data ∨ v = "true".data)
    client_fingerprint := getParamFn params "fp".data
    alpn := (getParamFn params "alpn".data).bind splitAlpn
    reality_opts := none
    ws_opts := none
    grpc_opts := none
    h2_opts := none
    packet_encoding := getParamFn params "packetEncoding".data }

/-- The Reality step (parser.rs lines 208-221). -/
def applyVlessReality (params : List (List Char × List Char))
    (security : List Char) (vn : VlessNode) : VlessNode :=
  if security = "reality".data then
    let vn :=
      match indexGet params "pbk".data with
      | some pbk =>
        let ro := some (RealityOpts.mk pbk (indexGet params "sid".data))
        { vn with reality_opts := ro }
      | none => vn
    if vn.client_fingerprint = none ∨ vn.client_fingerprint = some [] then
      { vn with client_fingerprint := some "chrome".data }
    else vn
  else vn

/-- The transport-options step (parser.rs lines 223-254). -/
def applyVlessNetwork (params : List (List Char × List Char))
    (network : List Char) (vn : VlessNode) : VlessNode :=
  if network = "ws".data then
    let headers :=
      match getParamFn params "host".data with
      | some host => [("Host".data, host)]
      | none => []
    let hOpt := if headers = [] then none else some headers
    let wo := some (WsOpts.mk (getParamFn params "path".data) hOpt)
    { vn with ws_opts := wo }
  else if network = "grpc".data then
    let go := some (GrpcOpts.mk (getParamFn params "serviceName".data))
    { vn with grpc_opts := go }
  else if network = "h2".data then
    let hostList := (getParamFn params "host".data).bind (fun v =>
      let list := ((splitOnChar ',' v).map rustTrim).filter (· ≠ [])
      if list = [] then none else some list)
    let ho := some (H2Opts.mk (getParamFn params "path".data) hostList)
    { vn with h2_opts := ho }
  else vn

/-- `parse_vless` (parser.rs lines 145-256). -/
def parse_vless (link : List Char) : Except ConvertError Node :=
  match urlParse link with
  | none => .error (.urlParseError "invalid url".data)
  | some url =>
    let uuid := url.username
    if uuid = [] then
      .error (.missingField "uuid".data "VLESS URL".data)
    else
      match url.host with
      | none => .error (.missingField "server".data "VLESS URL".data)
      | some server =>
        let port := url.port.getD 443
        let name := url_decode (url.fragment.getD server)
        let params := urlQueryParams url
        let network := (getParamFn params "type".data).getD "tcp".data
        let security := (getParamFn params "security".data).getD "none".data
        .ok (.vless (applyVlessNetwork params network
          (applyVlessReality params security
            (mkVlessBase params uuid server name port network security))))

-- ============================================================================
-- Claim C4: VLESS Reality handling
-- ============================================================================

/-- The query parameters a link's URL carries (empty when the URL fails to
parse). -/
def vlessParamsOf (link : List Char) : List (List Char × List Char) :=
  match urlParse link with
  | some url => urlQueryParams url
  | none => []

/-- A non-empty query parameter of a link. -/
def vlessGetParam (link k : List Char) : Option (List Char) :=
  getParamFn (vlessParamsOf link) k

theorem applyVlessNetwork_reality_opts (params : List (List Char × List Char))
    (network : List Char) (vn : VlessNode) :
    (applyVlessNetwork params network vn).reality_opts = vn.reality_opts := by
  unfold applyVlessNetwork
  split_ifs <;> rfl

theorem applyVlessNetwork_fp (params : List (List Char × List Char))
    (network : List Char) (vn : VlessNode) :
    (applyVlessNetwork params network vn).client_fingerprint =
      vn.client_fingerprint := by
  unfold applyVlessNetwork
  split_ifs <;> rfl

theorem applyVlessReality_opts (params : List (List Char × List Char))
    (vn : VlessNode) :
    (applyVlessReality params "reality".data vn).reality_opts =
      match indexGet params "pbk".data with
      | some pbk => some (RealityOpts.mk pbk (indexGet params "sid".data))
      | none => vn.reality_opts := by
  unfold applyVlessReality
  rw [if_pos rfl]
  cases indexGet params "pbk".data <;> dsimp only <;> split_ifs <;> rfl

theorem applyVlessReality_fp_absent (params : List (List Char × List Char))
    (vn : VlessNode) (h : vn.client_fingerprint = none) :
    (applyVlessReality params "reality".data vn).client_fingerprint =
      some "chrome".data := by
  unfold applyVlessReality
  rw [if_pos rfl]
  cases indexGet params "pbk".data <;> dsimp only <;> rw [if_pos (Or.inl h)]

/-- C4 (amended): for a VLESS URI whose `security` parameter is `reality`,
a successful parse does not require `pbk`; when `pbk` is present the node's
reality-opts carries that public key (with `sid` as short-id), when it is
absent reality-opts is omitted; and when the `fp` parameter is absent or
empty the node's client-fingerprint is set to "chrome". -/
theorem parse_vless_reality_spec (link : List Char) (node : Node)
    (h : parse_vless link = .ok node)
    (hsec : vlessGetParam link "security".data = some "reality".data) :
    ∃ vn : VlessNode, node = .vless vn ∧
      vn.reality_opts =
        ((indexGet (vlessParamsOf link) "pbk".data).map
          (fun pbk => RealityOpts.mk pbk
            (indexGet (vlessParamsOf link) "sid".data))) ∧
      (vlessGetParam link "fp".data = none →
        vn.client_fingerprint = some "chrome".data) := by
  unfold parse_vless at h
  cases hu : urlParse link with
  | none => rw [hu] at h; cases h
  | some url =>
    rw [hu] at h
    dsimp only at h
    have hp : vlessParamsOf link = urlQueryParams url := by
      unfold vlessParamsOf; rw [hu]
    by_cases hid : url.username = []
    · rw [if_pos hid] at h; cases h
    · rw [if_neg hid] at h
      cases hh : url.host with
      | none => rw [hh] at h; cases h
      | some server =>
        rw [hh] at h
        have hnode := (Except.ok.inj h).symm
        have hsec2 : (getParamFn (urlQueryParams url) "security".data).getD
            "none".data = "reality".data := by
          rw [← hp]
          unfold vlessGetParam at hsec
          rw [hsec]
          rfl
        refine ⟨_, hnode, ?_, ?_⟩
        · rw [applyVlessNetwork_reality_opts, hsec2, applyVlessReality_opts,
            hp]
          cases indexGet (urlQueryParams url) "pbk".data <;> rfl
        · intro hfp
          rw [applyVlessNetwork_fp, hsec2]
          apply applyVlessReality_fp_absent
          show getParamFn (urlQueryParams url) "fp".data = none
          rw [← hp]
          exact hfp

/-- A Reality link with `pbk` and `sid` but no `fp`. -/
def vlessRealityLink : List Char :=
  "vless://u@1.2.3.4:443?security=reality&pbk=KEY&sid=01#x".data

/-- The node produced for `vlessRealityLink`. -/
def vlessRealityNode : Node :=
  .vless
    { name := "x".data, server := "1.2.3.4".data, port := 443,
      uuid := "u".data, flow := none, network := "tcp".data,
      tls := some true, servername := none, skip_cert_verify := none,
      alpn := none,
      reality_opts := some (RealityOpts.mk "KEY".data (some "01".data)),
      ws_opts := none, grpc_opts := none, h2_opts := none,
      client_fingerprint := some "chrome".data, packet_encoding := none }

theorem parse_vless_reality_spec_witness :
    ∃ vn : VlessNode, vlessRealityNode = .vless vn ∧
      vn.reality_opts =
        ((indexGet (vlessParamsOf vlessRealityLink) "pbk".data).map
          (fun pbk => RealityOpts.mk pbk
            (indexGet (vlessParamsOf vlessRealityLink) "sid".data))) ∧
      (vlessGetParam vlessRealityLink "fp".data = none →
        vn.client_fingerprint = some "chrome".data) :=
  parse_vless_reality_spec vlessRealityLink vlessRealityNode (by decide)
    (by decide)

/-- A Reality link with no `pbk` parameter at all. -/
def vlessRealityNoPbkLink : List Char :=
  "vless://u@1.2.3.4:443?security=reality#x".data

/-- C4 counterexample: parsing a `security=reality` VLESS URI without `pbk`
succeeds (with reality-opts omitted), refuting the claim that parsing
succeeds only when `pbk` is present. -/
theorem parse_vless_reality_counterexample :
    parse_vless vlessRealityNoPbkLink =
      .ok (.vless
        { name := "x".data, server := "1.2.3.4".data, port := 443,
          uuid := "u".data, flow := none, network := "tcp".data,
          tls := some true, servername := none, skip_cert_verify := none,
          alpn := none, reality_opts := none,
          ws_opts := none, grpc_opts := none, h2_opts := none,
          client_fingerprint := some "chrome".data,
          packet_encoding := none }) := by
  decide

-- ============================================================================
-- ShadowsocksR parsing (parser.rs lines 623-784) — claim C8
-- ============================================================================

/-- `SSR_VALID_CIPHERS` (node.rs lines 965-983). -/
def ssrValidCiphers : List (List Char) :=
  ["none".data, "table".data, "rc4".data, "rc4-md5".data,
   "aes-128-cfb".data, "aes-192-cfb".data, "aes-256-cfb".data,
   "aes-128-ctr".data, "aes-192-ctr".data, "aes-256-ctr".data,
   "bf-cfb".data, "camellia-128-cfb".data, "camellia-192-cfb".data,
   "camellia-256-cfb".data, "salsa20".data, "chacha20".data,
   "chacha20-ietf".data]

/-- `normalize_cipher` (node.rs lines 1010-1012): lowercase and
underscore→dash. -/
def normalize_cipher (cipher : List Char) : List Char :=
  (asciiLower cipher).map (fun c => if c = '_' then '-' else c)

/-- `is_valid_ssr_cipher` (node.rs lines 1021-1024). -/
def is_valid_ssr_cipher (cipher : List Char) : Bool :=
  ssrValidCiphers.contains (normalize_cipher cipher)

def ssrPrefix : List Char := "ssr://".data

/-- Splitting the query outside the outer base64 (parser.rs lines 634-647). -/
def ssrSplitExt (content : List Char) : List Char × Option (List Char) :=
  match findSubIdx "/?".data content with
  | some idx => (content.take idx, some (content.drop (idx + 2)))
  | none =>
    match findSubIdx "?".data content with
    | some idx =>
      let before := content.take idx
      if before.all (fun c =>
          isAsciiAlnum c || c = '-' || c = '_' || c = '=') then
        (before, some (content.drop (idx + 1)))
      else (content, none)
    | none => (content, none)

/-- Splitting the query inside the decoded payload (parser.rs lines
653-659). -/
def ssrSplitInternal (decoded : List Char) : List Char × Option (List Char) :=
  match findSubIdx "/?".data decoded with
  | some idx => (decoded.take idx, some (decoded.drop (idx + 2)))
  | none =>
    match findSubIdx "?".data decoded with
    | some idx => (decoded.take idx, some (decoded.drop (idx + 1)))
    | none => (decoded, none)

/-- Merging internal and external query params (parser.rs lines 662-667):
the internal string first, the external appended after `&`. -/
def ssrMergeQuery :
    Option (List Char) → Option (List Char) → Option (List Char)
  | some i, some e => some (i ++ ['&'] ++ e)
  | some i, none => some i
  | none, some e => some e
  | none, none => none

/-- `u16::from_str` (optional `+` sign, digits, bounded by 65535). -/
def parseU16 (s : List Char) : Option Nat :=
  let s2 := if s.head? = some '+' then s.drop 1 else s
  match natOfDigits s2 with
  | some n => if n ≤ 65535 then some n else none
  | none => none

/-- Parsing the main `server:port:protocol:method:obfs:password` section,
including both IPv6 forms, cipher validation and password decoding
(parser.rs lines 669-746). -/
def ssrParseMain (main_part : List Char) :
    Except ConvertError
      (List Char × Nat × List Char × List Char × List Char × List Char) :=
  let parts := splitnChar 6 ':' main_part
  if parts.length < 6 then
    .error (.invalidNodeFormat "ssr".data
      "Expected 6 parts in main section".data)
  else
    let serverRest : Except ConvertError (List Char × List (List Char)) :=
      if main_part.head? = some '[' then
        match findSubIdx "]".data main_part with
        | some bracket_end =>
          .ok ((main_part.take bracket_end).drop 1,
            splitnChar 5 ':' (main_part.drop (bracket_end + 2)))
        | none =>
          .error (.invalidNodeFormat "ssr".data "Invalid IPv6 format".data)
      else
        let colon_count := countChar ':' main_part
        if colon_count > 5 then
          let all_parts := splitOnChar ':' main_part
          let num := all_parts.length
          if num ≥ 6 then
            let rest := all_parts.drop (num - 5)
            let server :=
              match all_parts.take (num - 5) with
              | [] => []
              | p :: ps => ps.foldl (fun acc q => acc ++ [':'] ++ q) p
            .ok (server, rest)
          else
            .error (.invalidNodeFormat "ssr".data
              "Cannot parse IPv6 server".data)
        else
          .ok (parts.headD [], parts.drop 1)
    match serverRest with
    | .error e => .error e
    | .ok (server, rest_parts) =>
      match rest_parts.head?.bind parseU16 with
      | none => .error (.invalidNodeFormat "ssr".data "Invalid port".data)
      | some port =>
        let protocol := (rest_parts.get? 1).getD "origin".data
        let method := (rest_parts.get? 2).getD "aes-256-cfb".data
        let obfs := (rest_parts.get? 3).getD "plain".data
        let password_b64 := (rest_parts.get? 4).getD []
        if !is_valid_ssr_cipher method then
          .error (.invalidNodeFormat "ssr".data "Unsupported cipher".data)
        else
          let password :=
            match b64FlexOpt password_b64 with
            | some b => utf8Lossy b
            | none => []
          .ok (server, port, protocol, method, obfs, password)

/-- Decoding of an SSR query-parameter value (parser.rs lines 757-759):
base64-flexible, lossy UTF-8, falling back to the raw value. -/
def ssrDecodeParamValue (value : List Char) : List Char :=
  match b64FlexOpt value with
  | some b => utf8Lossy b
  | none => value

/-- The state accumulated by the query-parameter loop (parser.rs lines
749-770). -/
structure SsrParams where
  name : List Char
  obfs_param : Option (List Char)
  protocol_param : Option (List Char)
  group : Option (List Char)

/-- One iteration of the query-parameter loop. -/
def ssrApplyParam (st : SsrParams) (pair : List Char) : SsrParams :=
  match splitOnceChar '=' pair with
  | some (key, value) =>
    let decoded := ssrDecodeParamValue value
    if key = "remarks".data then { st with name := decoded }
    else if key = "obfsparam".data then { st with obfs_param := some decoded }
    else if key = "protoparam".data then
      { st with protocol_param := some decoded }
    else if key = "group".data then { st with group := some decoded }
    else st
  | none => st

/-- The whole query-parameter loop. -/
def ssrApplyParams (st : SsrParams) (query : Option (List Char)) : SsrParams :=
  match query with
  | none => st
  | some q => (splitOnChar '&' q).foldl ssrApplyParam st

/-- `parse_ssr` (parser.rs lines 623-784). -/
def parse_ssr (link : List Char) : Except ConvertError Node :=
  if ssrPrefix.isPrefixOf link then
    let content := link.drop ssrPrefix.length
    let se := ssrSplitExt content
    match decode_base64_flexible (rustTrim se.1) with
    | .error e => .error e
    | .ok bytes =>
      let decoded_str := utf8Lossy bytes
      let si := ssrSplitInternal decoded_str
      let query_part := ssrMergeQuery si.2 se.2
      match ssrParseMain si.1 with
      | .error e => .error e
      | .ok (server, port, protocol, method, obfs, password) =>
        let st := ssrApplyParams ⟨server, none, none, none⟩ query_part
        .ok (.ssr
          { name := st.name, server := server, port := port,
            cipher := method, password := password, protocol := protocol,
            protocol_param := st.protocol_param, obfs := obfs,
            obfs_param := st.obfs_param, group := st.group })
  else .error (.invalidNodeFormat "ssr".data "Missing ssr:// prefix".data)

/-- Last-wins lookup of a key in a raw query string: the value of the last
`key=value` pair among the `&`-separated pairs. -/
def ssrParamStep (key : List Char) (acc : Option (List Char))
    (pair : List Char) : Option (List Char) :=
  match splitOnceChar '=' pair with
  | some (k, v) => if k = key then some v else acc
  | none => acc

/-- The last value a query string binds to a key, if any. -/
def lastParamValue (key q : List Char) : Option (List Char) :=
  (splitOnChar '&' q).foldl (ssrParamStep key) none

theorem splitOnChar_ne_nil (sep : Char) (s : List Char) :
    splitOnChar sep s ≠ [] := by
  cases s with
  | nil => simp [splitOnChar]
  | cons c cs =>
    simp only [splitOnChar]
    split_ifs
    · simp
    · cases h : splitOnChar sep cs <;> simp

theorem splitOnChar_append (sep : Char) (a b : List Char) :
    splitOnChar sep (a ++ sep :: b) =
      splitOnChar sep a ++ splitOnChar sep b := by
  induction a with
  | nil => simp [splitOnChar]
  | cons c cs ih =>
    by_cases hc : c = sep
    · subst hc
      simp [splitOnChar, ih]
    · simp only [List.cons_append, splitOnChar, if_neg hc]
      show (match splitOnChar sep (cs ++ sep :: b) with
        | [] => [[c]]
        | p :: ps => (c :: p) :: ps) =
        (match splitOnChar sep cs with
          | [] => [[c]]
          | p :: ps => (c :: p) :: ps) ++ splitOnChar sep b
      rw [ih]
      cases hcs : splitOnChar sep cs with
      | nil => exact absurd hcs (splitOnChar_ne_nil sep cs)
      | cons p ps => rfl

theorem foldl_step_lastwins (key : List Char) (ps : List (List Char))
    (acc : Option (List Char)) :
    ps.foldl (ssrParamStep key) acc =
      (ps.foldl (ssrParamStep key) none).or acc := by
  induction ps generalizing acc with
  | nil => rfl
  | cons p ps ih =>
    simp only [List.foldl_cons]
    rw [ih (ssrParamStep key acc p), ih (ssrParamStep key none p)]
    cases hx : ps.foldl (ssrParamStep key) none with
    | some v => rfl
    | none =>
      show ssrParamStep key acc p = (ssrParamStep key none p).or acc
      unfold ssrParamStep
      cases splitOnceChar '=' p with
      | none => rfl
      | some kv =>
        obtain ⟨k, vv⟩ := kv
        dsimp only
        split_ifs <;> rfl

theorem ssrFold_name (pairs : List (List Char)) (st : SsrParams) :
    (pairs.foldl ssrApplyParam st).name =
      match pairs.foldl (ssrParamStep "remarks".data) none with
      | some v => ssrDecodeParamValue v
      | none => st.name := by
  induction pairs generalizing st with
  | nil => rfl
  | cons p ps ih =>
    simp only [List.foldl_cons]
    rw [ih, foldl_step_lastwins _ ps (ssrParamStep "remarks".data none p)]
    cases hps : ps.foldl (ssrParamStep "remarks".data) none with
    | some v => rfl
    | none =>
      show (ssrApplyParam st p).name =
        match ssrParamStep "remarks".data none p with
        | some v => ssrDecodeParamValue v
        | none => st.name
      unfold ssrApplyParam ssrParamStep
      cases splitOnceChar '=' p with
      | none => rfl
      | some kv =>
        obtain ⟨k, vv⟩ := kv
        dsimp only
        split_ifs <;> rfl

theorem ssrFold_obfs (pairs : List (List Char)) (st : SsrParams) :
    (pairs.foldl ssrApplyParam st).obfs_param =
      match pairs.foldl (ssrParamStep "obfsparam".data) none with
      | some v => some (ssrDecodeParamValue v)
      | none => st.obfs_param := by
  induction pairs generalizing st with
  | nil => rfl
  | cons p ps ih =>
    simp only [List.foldl_cons]
    rw [ih, foldl_step_lastwins _ ps (ssrParamStep "obfsparam".data none p)]
    cases hps : ps.foldl (ssrParamStep "obfsparam".data) none with
    | some v => rfl
    | none =>
      show (ssrApplyParam st p).obfs_param =
        match ssrParamStep "obfsparam".data none p with
        | some v => some (ssrDecodeParamValue v)
        | none => st.obfs_param
      unfold ssrApplyParam ssrParamStep
      cases splitOnceChar '=' p with
      | none => rfl
      | some kv =>
        obtain ⟨k, vv⟩ := kv
        dsimp only
        split_ifs <;> try rfl
        all_goals (rename_i hA hB; exact absurd (hA.symm.trans hB) (by decide))

theorem ssrFold_proto (pairs : List (List Char)) (st : SsrParams) :
    (pairs.foldl ssrApplyParam st).protocol_param =
      match pairs.foldl (ssrParamStep "protoparam".data) none with
      | some v => some (ssrDecodeParamValue v)
      | none => st.protocol_param := by
  induction pairs generalizing st with
  | nil => rfl
  | cons p ps ih =>
    simp only [List.foldl_cons]
    rw [ih, foldl_step_lastwins _ ps (ssrParamStep "protoparam".data none p)]
    cases hps : ps.foldl (ssrParamStep "protoparam".data) none with
    | some v => rfl
    | none =>
      show (ssrApplyParam st p).protocol_param =
        match ssrParamStep "protoparam".data none p with
        | some v => some (ssrDecodeParamValue v)
        | none => st.protocol_param
      unfold ssrApplyParam ssrParamStep
      cases splitOnceChar '=' p with
      | none => rfl
      | some kv =>
        obtain ⟨k, vv⟩ := kv
        dsimp only
        split_ifs <;> try rfl
        all_goals (rename_i hA hB; exact absurd (hA.symm.trans hB) (by decide))

theorem ssrFold_group (pairs : List (List Char)) (st : SsrParams) :
    (pairs.foldl ssrApplyParam st).group =
      match pairs.foldl (ssrParamStep "group".data) none with
      | some v => some (ssrDecodeParamValue v)
      | none => st.group := by
  induction pairs generalizing st with
  | nil => rfl
  | cons p ps ih =>
    simp only [List.foldl_cons]
    rw [ih, foldl_step_lastwins _ ps (ssrParamStep "group".data none p)]
    cases hps : ps.foldl (ssrParamStep "group".data) none with
    | some v => rfl
    | none =>
      show (ssrApplyParam st p).group =
        match ssrParamStep "group".data none p with
        | some v => some (ssrDecodeParamValue v)
        | none => st.group
      unfold ssrApplyParam ssrParamStep
      cases splitOnceChar '=' p with
      | none => rfl
      | some kv =>
        obtain ⟨k, vv⟩ := kv
        dsimp only
        split_ifs <;> try rfl
        all_goals (rename_i hA hB; exact absurd (hA.symm.trans hB) (by decide))

theorem isPrefixOf_append_self (a b : List Char) :
    a.isPrefixOf (a ++ b) = true := by
  induction a with
  | nil => simp [List.isPrefixOf]
  | cons c cs ih => simp [List.isPrefixOf, ih]

/-- C8: for every SSR link carrying both an internal (inside the outer
base64) and an external query, whenever the external query defines one of
the recognized keys, the parsed node's corresponding field carries the
external query's (last) value — the external parameters win because they
are appended after the internal ones and the loop lets later pairs
overwrite earlier ones. -/
theorem parse_ssr_external_wins (link : List Char) (node : Node)
    (h : parse_ssr link = .ok node)
    (content : List Char) (hlink : link = ssrPrefix ++ content)
    (enc ext : List Char) (hsplit : ssrSplitExt content = (enc, some ext))
    (bytes : List Nat)
    (hdec : decode_base64_flexible (rustTrim enc) = .ok bytes)
    (main int : List Char)
    (hint : ssrSplitInternal (utf8Lossy bytes) = (main, some int)) :
    ∃ sn : SsrNode, node = .ssr sn ∧
      (∀ v, lastParamValue "remarks".data ext = some v →
        sn.name = ssrDecodeParamValue v) ∧
      (∀ v, lastParamValue "obfsparam".data ext = some v →
        sn.obfs_param = some (ssrDecodeParamValue v)) ∧
      (∀ v, lastParamValue "protoparam".data ext = some v →
        sn.protocol_param = some (ssrDecodeParamValue v)) ∧
      (∀ v, lastParamValue "group".data ext = some v →
        sn.group = some (ssrDecodeParamValue v)) := by
  subst hlink
  unfold parse_ssr at h
  rw [if_pos (by rw [isPrefixOf_append_self])] at h
  rw [List.drop_left] at h
  dsimp only at h
  rw [hsplit] at h
  dsimp only at h
  rw [hdec] at h
  dsimp only at h
  rw [hint] at h
  dsimp only at h
  cases hm : ssrParseMain main with
  | error e => rw [hm] at h; cases h
  | ok tup =>
    obtain ⟨server, port, protocol, method, obfs, password⟩ := tup
    rw [hm] at h
    dsimp only at h
    have hnode := (Except.ok.inj h).symm
    refine ⟨_, hnode, ?_, ?_, ?_, ?_⟩ <;> intro v hv
    · show (ssrApplyParams ⟨server, none, none, none⟩
        (ssrMergeQuery (some int) (some ext))).name = ssrDecodeParamValue v
      show ((splitOnChar '&' (int ++ ['&'] ++ ext)).foldl ssrApplyParam
        ⟨server, none, none, none⟩).name = _
      rw [List.append_assoc]
      show ((splitOnChar '&' (int ++ '&' :: ext)).foldl ssrApplyParam
        ⟨server, none, none, none⟩).name = _
      rw [splitOnChar_append, List.foldl_append, ssrFold_name]
      unfold lastParamValue at hv
      rw [hv]
    · show (ssrApplyParams ⟨server, none, none, none⟩
        (ssrMergeQuery (some int) (some ext))).obfs_param =
        some (ssrDecodeParamValue v)
      show ((splitOnChar '&' (int ++ ['&'] ++ ext)).foldl ssrApplyParam
        ⟨server, none, none, none⟩).obfs_param = _
      rw [List.append_assoc]
      show ((splitOnChar '&' (int ++ '&' :: ext)).foldl ssrApplyParam
        ⟨server, none, none, none⟩).obfs_param = _
      rw [splitOnChar_append, List.foldl_append, ssrFold_obfs]
      unfold lastParamValue at hv
      rw [hv]
    · show (ssrApplyParams ⟨server, none, none, none⟩
        (ssrMergeQuery (some int) (some ext))).protocol_param =
        some (ssrDecodeParamValue v)
      show ((splitOnChar '&' (int ++ ['&'] ++ ext)).foldl ssrApplyParam
        ⟨server, none, none, none⟩).protocol_param = _
      rw [List.append_assoc]
      show ((splitOnChar '&' (int ++ '&' :: ext)).foldl ssrApplyParam
        ⟨server, none, none, none⟩).protocol_param = _
      rw [splitOnChar_append, List.foldl_append, ssrFold_proto]
      unfold lastParamValue at hv
      rw [hv]
    · show (ssrApplyParams ⟨server, none, none, none⟩
        (ssrMergeQuery (some int) (some ext))).group =
        some (ssrDecodeParamValue v)
      show ((splitOnChar '&' (int ++ ['&'] ++ ext)).foldl ssrApplyParam
        ⟨server, none, none, none⟩).group = _
      rw [List.append_assoc]
      show ((splitOnChar '&' (int ++ '&' :: ext)).foldl ssrApplyParam
        ⟨server, none, none, none⟩).group = _
      rw [splitOnChar_append, List.foldl_append, ssrFold_group]
      unfold lastParamValue at hv
      rw [hv]

/-- An SSR link whose payload carries `remarks=aW50` (base64 of "int")
inside the base64 and `remarks=ZXh0` (base64 of "ext") outside it. -/
def ssrDupRemarksLink : List Char :=
  ("ssr://MS4yLjMuNDo4Mzg4Om9yaWdpbjphZXMtMjU2LWNmYjpwbGFpbjpjR0Z6Y3cv" ++
    "P3JlbWFya3M9YVc1MA==/?remarks=ZXh0").data

/-- The node produced for `ssrDupRemarksLink`: the external remarks win. -/
def ssrDupRemarksNode : Node :=
  .ssr
    { name := "ext".data, server := "1.2.3.4".data, port := 8388,
      cipher := "aes-256-cfb".data, password := "pass".data,
      protocol := "origin".data, protocol_param := none,
      obfs := "plain".data, obfs_param := none, group := none }

theorem parse_ssr_external_wins_witness :
    ∃ sn : SsrNode, ssrDupRemarksNode = .ssr sn ∧
      (∀ v, lastParamValue "remarks".data "remarks=ZXh0".data = some v →
        sn.name = ssrDecodeParamValue v) ∧
      (∀ v, lastParamValue "obfsparam".data "remarks=ZXh0".data = some v →
        sn.obfs_param = some (ssrDecodeParamValue v)) ∧
      (∀ v, lastParamValue "protoparam".data "remarks=ZXh0".data = some v →
        sn.protocol_param = some (ssrDecodeParamValue v)) ∧
      (∀ v, lastParamValue "group".data "remarks=ZXh0".data = some v →
        sn.group = some (ssrDecodeParamValue v)) :=
  parse_ssr_external_wins ssrDupRemarksLink ssrDupRemarksNode (by decide)
    (ssrDupRemarksLink.drop 6) (by decide)
    ("MS4yLjMuNDo4Mzg4Om9yaWdpbjphZXMtMjU2LWNmYjpwbGFpbjpjR0Z6Y3cv" ++
      "P3JlbWFya3M9YVc1MA==").data
    "remarks=ZXh0".data (by decide)
    ("1.2.3.4:8388:origin:aes-256-cfb:plain:cGFzcw/?remarks=aW50".data.map
      Char.toNat)
    (by decide)
    "1.2.3.4:8388:origin:aes-256-cfb:plain:cGFzcw".data "remarks=aW50".data
    (by decide)

-- ============================================================================
-- JSON (the `serde_json` values and parsing used by the VMess decoder)
-- ============================================================================

/-- Model of `serde_json::Value`.  Integral numbers are carried exactly;
non-integral number literals keep their raw text (`as_u64` is `none` for
them, `to_string` reproduces the literal). -/
inductive Json where
  | str (s : List Char)
  | int (n : Int)
  | numOther (raw : List Char)
  | bool (b : Bool)
  | null
  | arr (items : List Json)
  | obj (entries : List (List Char × Json))

/-- `Value::get(key)` on an object: the value bound to the key (later
duplicate keys overwrite earlier ones, so the last binding wins). -/
def jsonGet : Json → List Char → Option Json
  | .obj entries, key =>
    ((entries.reverse).find? (fun kv => kv.1 = key)).map (·.2)
  | _, _ => none

/-- JSON string escaping (compact `to_string` rendering). -/
def jsonEscape (s : List Char) : List Char :=
  s.flatMap (fun c =>
    if c = dq then ['\\', dq]
    else if c = '\\' then ['\\', '\\']
    else if c = '\n' then ['\\', 'n']
    else if c = '\r' then ['\\', 'r']
    else if c = '\t' then ['\\', 't']
    else [c])

/-- Decimal rendering of an integer. -/
def intDigits (n : Int) : List Char :=
  if n < 0 then '-' :: natDigits n.natAbs else natDigits n.natAbs

mutual

/-- Compact `Value::to_string` rendering. -/
def jsonToString : Json → List Char
  | .str s => dq :: jsonEscape s ++ [dq]
  | .int n => intDigits n
  | .numOther raw => raw
  | .bool b => if b then "true".data else "false".data
  | .null => "null".data
  | .arr items =>
    '[' :: List.intercalate [','] (jsonToStringList items) ++ [']']
  | .obj entries =>
    '{' :: List.intercalate [','] (jsonToStringEntries entries) ++ ['}']

/-- Renderings of the elements of an array. -/
def jsonToStringList : List Json → List (List Char)
  | [] => []
  | j :: rest => jsonToString j :: jsonToStringList rest

/-- Renderings of the members of an object. -/
def jsonToStringEntries : List (List Char × Json) → List (List Char)
  | [] => []
  | kv :: rest =>
    (dq :: jsonEscape kv.1 ++ [dq] ++ [':'] ++ jsonToString kv.2) ::
      jsonToStringEntries rest

end

/-- JSON whitespace. -/
def isJsonWs (c : Char) : Bool :=
  c = ' ' || c = '\t' || c = '\n' || c = '\r'

/-- Parse a JSON string body after the opening quote; returns the content
and the remainder after the closing quote. -/
def jsonParseString : Nat → List Char → Option (List Char × List Char)
  | 0, _ => none
  | _ + 1, [] => none
  | fuel + 1, c :: rest =>
    if c = dq then some ([], rest)
    else if c = '\\' then
      match rest with
      | [] => none
      | e :: rest2 =>
        let dec : Option (List Char × List Char) :=
          if e = dq then some ([dq], rest2)
          else if e = '\\' then some (['\\'], rest2)
          else if e = '/' then some (['/'], rest2)
          else if e = 'b' then some ([Char.ofNat 8], rest2)
          else if e = 'f' then some ([Char.ofNat 12], rest2)
          else if e = 'n' then some (['\n'], rest2)
          else if e = 'r' then some (['\r'], rest2)
          else if e = 't' then some (['\t'], rest2)
          else if e = 'u' then
            match rest2 with
            | h1 :: h2 :: h3 :: h4 :: rest3 =>
              match hexVal h1, hexVal h2, hexVal h3, hexVal h4 with
              | some a, some b, some c2, some d =>
                let n := a * 4096 + b * 256 + c2 * 16 + d
                if 0xD800 ≤ n ∧ n ≤ 0xDFFF then none
                else some ([Char.ofNat n], rest3)
              | _, _, _, _ => none
            | _ => none
          else none
        match dec with
        | some (chars, rest2) =>
          (jsonParseString fuel rest2).map (fun (s, r) => (chars ++ s, r))
        | none => none
    else (jsonParseString fuel rest).map (fun (s, r) => (c :: s, r))

/-- Parse a JSON number starting at the current position. -/
def jsonParseNumber (s : List Char) : Option (Json × List Char) :=
  let isNumChar (c : Char) : Bool :=
    (0x30 ≤ c.toNat && c.toNat ≤ 0x39) || c = '-' || c = '+' || c = '.' ||
      c = 'e' || c = 'E'
  let tok := s.takeWhile isNumChar
  let rest := s.drop tok.length
  if tok = [] then none
  else if tok.contains '.' || tok.contains 'e' || tok.contains 'E' then
    some (.numOther tok, rest)
  else
    match tok with
    | '-' :: ds =>
      match natOfDigits ds with
      | some n => some (.int (-(n : Int)), rest)
      | none => none
    | ds =>
      match natOfDigits ds with
      | some n => some (.int (n : Int), rest)
      | none => none

mutual

/-- Parse one JSON value. -/
def jsonParseValue : Nat → List Char → Option (Json × List Char)
  | 0, _ => none
  | fuel + 1, s =>
    let s := s.dropWhile isJsonWs
    match s with
    | [] => none
    | c :: rest =>
      if c = dq then
        (jsonParseString (fuel + 1) rest).map (fun (str, r) => (.str str, r))
      else if c = '{' then jsonParseObj fuel (rest.dropWhile isJsonWs) []
      else if c = '[' then jsonParseArr fuel (rest.dropWhile isJsonWs) []
      else if "true".data.isPrefixOf s then some (.bool true, s.drop 4)
      else if "false".data.isPrefixOf s then some (.bool false, s.drop 5)
      else if "null".data.isPrefixOf s then some (.null, s.drop 4)
      else jsonParseNumber s

/-- Parse the members of an object after `{` (or after a comma). -/
def jsonParseObj (fuel : Nat) (s : List Char)
    (acc : List (List Char × Json)) : Option (Json × List Char) :=
  match fuel with
  | 0 => none
  | fuel + 1 =>
    match s with
    | '}' :: rest => some (.obj acc.reverse, rest)
    | c :: rest =>
      if c = dq then
        match jsonParseString (fuel + 1) rest with
        | none => none
        | some (key, r1) =>
          match (r1.dropWhile isJsonWs) with
          | ':' :: r2 =>
            match jsonParseValue fuel r2 with
            | none => none
            | some (v, r3) =>
              match r3.dropWhile isJsonWs with
              | ',' :: r4 =>
                jsonParseObj fuel (r4.dropWhile isJsonWs) ((key, v) :: acc)
              | '}' :: r4 => some (.obj ((key, v) :: acc).reverse, r4)
              | _ => none
          | _ => none
      else none
    | [] => none

/-- Parse the elements of an array after `[` (or after a comma). -/
def jsonParseArr (fuel : Nat) (s : List Char) (acc : List Json) :
    Option (Json × List Char) :=
  match fuel with
  | 0 => none
  | fuel + 1 =>
    match s with
    | ']' :: rest => some (.arr acc.reverse, rest)
    | _ =>
      match jsonParseValue fuel s with
      | none => none
      | some (v, r1) =>
        match r1.dropWhile isJsonWs with
        | ',' :: r2 => jsonParseArr fuel (r2.dropWhile isJsonWs) (v :: acc)
        | ']' :: r2 => some (.arr (v :: acc).reverse, r2)
        | _ => none

end

/-- `serde_json::from_slice::<Value>`: UTF-8 decode then parse, requiring
only trailing whitespace after the value. -/
def jsonFromSlice (bytes : List Nat) : Option Json :=
  match utf8Decode bytes with
  | none => none
  | some chars =>
    match jsonParseValue (chars.length + 1) chars with
    | some (v, rest) => if rest.dropWhile isJsonWs = [] then some v else none
    | none => none

-- ============================================================================
-- VMess parsing (parser.rs lines 263-407)
-- ============================================================================

/-- Rust `str::trim_matches(c)`: strip the character from both ends. -/
def trimMatchesChar (ch : Char) (s : List Char) : List Char :=
  ((s.dropWhile (· = ch)).reverse.dropWhile (· = ch)).reverse

/-- `u32::from_str`. -/
def parseU32 (s : List Char) : Option Nat :=
  let s2 := if s.head? = some '+' then s.drop 1 else s
  match natOfDigits s2 with
  | some n => if n < 4294967296 then some n else none
  | none => none

/-- The `get_str` closure of `parse_vmess` (parser.rs lines 279-296). -/
def jsonGetStr (json : Json) (key : List Char) : Option (List Char) :=
  match jsonGet json key with
  | none => none
  | some (.str s) => some s
  | some .null => none
  | some v =>
    let s := trimMatchesChar dq (jsonToString v)
    if s = [] || s = "null".data then none else some s

/-- The `get_u32` closure of `parse_vmess` (parser.rs lines 298-308). -/
def jsonGetU32 (json : Json) (key : List Char) : Option Nat :=
  match jsonGet json key with
  | some (.int n) => if 0 ≤ n then some (n.toNat % 4294967296) else none
  | some (.numOther _) => none
  | some (.str s) => parseU32 s
  | _ => none

/-- A non-empty string field. -/
def jsonGetStrNonempty (json : Json) (key : List Char) : Option (List Char) :=
  match jsonGetStr json key with
  | some s => if s ≠ [] then some s else none
  | none => none

/-- The transport-options step of `parse_vmess` (parser.rs lines 369-404). -/
def applyVmessNetwork (json : Json) (network : List Char) (vn : VmessNode) :
    VmessNode :=
  if network = "ws".data then
    let headers :=
      match jsonGetStr json "host".data with
      | some host => [("Host".data, host)]
      | none => []
    let hOpt := if headers = [] then none else some headers
    let wo := some (WsOpts.mk (jsonGetStr json "path".data) hOpt)
    { vn with ws_opts := wo }
  else if network = "h2".data then
    let hostList := (jsonGetStr json "host".data).map (fun v =>
      ((splitOnChar ',' v).map rustTrim).filter (· ≠ []))
    let hostList := match hostList with
      | some l => if l ≠ [] then some l else none
      | none => none
    let ho := some (H2Opts.mk (jsonGetStr json "path".data) hostList)
    { vn with h2_opts := ho }
  else if network = "grpc".data then
    let service := match jsonGetStr json "path".data with
      | some s => some s
      | none =>
        match jsonGetStr json "serviceName".data with
        | some s => some s
        | none => jsonGetStr json "grpc-service-name".data
    let go := some (GrpcOpts.mk service)
    { vn with grpc_opts := go }
  else vn

/-- `parse_vmess` (parser.rs lines 263-407). -/
def parse_vmess (link : List Char) : Except ConvertError Node :=
  if "vmess://".data.isPrefixOf link then
    let encoded := link.drop 8
    match decode_base64_flexible (rustTrim encoded) with
    | .error e => .error e
    | .ok decoded =>
      match jsonFromSlice decoded with
      | none => .error (.invalidNodeFormat "vmess".data "Invalid JSON".data)
      | some json =>
        match jsonGetStr json "add".data with
        | none => .error (.missingField "add (server)".data "VMess config".data)
        | some server =>
          match jsonGetStr json "id".data with
          | none => .error (.missingField "id (uuid)".data "VMess config".data)
          | some uuid =>
            let port := ((jsonGetU32 json "port".data).getD 443) % 65536
            let name := (jsonGetStr json "ps".data).getD server
            let network := (jsonGetStr json "net".data).getD "tcp".data
            let tls := (jsonGetStr json "tls".data).map (fun v =>
              decide (v ≠ [] ∧ v ≠ "none".data ∧ v = "tls".data))
            let scv :=
              match jsonGet json "skip-cert-verify".data with
              | some (.bool b) => some b
              | some (.str s) => some (s = "true".data)
              | _ => none
            let servername :=
              match jsonGetStrNonempty json "sni".data with
              | some s => some s
              | none =>
                if network = "ws".data then
                  jsonGetStrNonempty json "host".data
                else none
            let base : VmessNode :=
              { name := name, server := server, port := port, uuid := uuid,
                alterId := (jsonGetU32 json "aid".data).getD 0,
                cipher :=
                  ((jsonGetStr json "scy".data).orElse
                    (fun _ => jsonGetStr json "security".data)).getD
                    "auto".data,
                network := some network, tls := tls,
                skip_cert_verify := scv, servername := servername,
                ws_opts := none, h2_opts := none, grpc_opts := none }
            .ok (.vmess (applyVmessNetwork json network base))
  else .error (.invalidNodeFormat "vmess".data "Missing vmess:// prefix".data)

-- ============================================================================
-- Shadowsocks parsing (parser.rs lines 413-617)
-- ============================================================================

/-- `SS_VALID_CIPHERS` (node.rs lines 940-961). -/
def ssValidCiphers : List (List Char) :=
  ["aes-128-gcm".data, "aes-192-gcm".data, "aes-256-gcm".data,
   "chacha20-ietf-poly1305".data, "xchacha20-ietf-poly1305".data,
   "2022-blake3-aes-128-gcm".data, "2022-blake3-aes-256-gcm".data,
   "2022-blake3-chacha20-poly1305".data,
   "aes-128-cfb".data, "aes-192-cfb".data, "aes-256-cfb".data,
   "aes-128-ctr".data, "aes-192-ctr".data, "aes-256-ctr".data,
   "rc4-md5".data, "chacha20-ietf".data, "xchacha20".data]

/-- `is_valid_ss_cipher` (node.rs lines 1015-1018). -/
def is_valid_ss_cipher (cipher : List Char) : Bool :=
  ssValidCiphers.contains (normalize_cipher cipher)

/-- Rust `str::trim_end_matches(c)` for a character pattern. -/
def trimEndMatchesChar (ch : Char) (s : List Char) : List Char :=
  (s.reverse.dropWhile (· = ch)).reverse

/-- `parse_ss_plugin` (parser.rs lines 526-617). -/
def parse_ss_plugin (query : Option (List Char)) :
    Option (List Char) × Option (List (List Char × List Char)) :=
  match query with
  | none => (none, none)
  | some q =>
    let plugin_value := (splitOnChar '&' q).findSome? (fun pair =>
      match splitOnceChar '=' pair with
      | some (k, v) => if k = "plugin".data then some (url_decode v) else none
      | none => none)
    match plugin_value with
    | none => (none, none)
    | some plugin_str =>
      let parts := splitOnChar ';' plugin_str
      if parts = [] then (none, none)
      else
        let plugin_name := parts.headD []
        let opts := (parts.drop 1).foldl (fun m part =>
          match splitOnceChar '=' part with
          | some (k, v) => indexInsert k v m
          | none => m) []
        let pc :=
          if plugin_name = "obfs-local".data ∨
              plugin_name = "simple-obfs".data then
            let co : List (List Char × List Char) := []
            let co := match indexGet opts "obfs".data with
              | some m => indexInsert "mode".data m co
              | none => co
            let co := match indexGet opts "obfs-host".data with
              | some h => indexInsert "host".data h co
              | none => co
            ("obfs".data, co)
          else if plugin_name = "v2ray-plugin".data then
            let co : List (List Char × List Char) := []
            let co := match indexGet opts "mode".data with
              | some m => indexInsert "mode".data m co
              | none => co
            let co := match indexGet opts "host".data with
              | some h => indexInsert "host".data h co
              | none => co
            let co := match indexGet opts "path".data with
              | some p => indexInsert "path".data p co
              | none => co
            let tlsFlag :=
              ((indexGet opts "tls".data).map (fun v =>
                decide (v = "true".data ∨ v = "1".data ∨ v = []))).getD false
            let co :=
              if tlsFlag || containsSub ";tls".data plugin_str then
                indexInsert "tls".data "true".data co
              else co
            let co := match indexGet opts "mux".data with
              | some m => indexInsert "mux".data m co
              | none => co
            let co := match indexGet opts "skip-cert-verify".data with
              | some sk => indexInsert "skip-cert-verify".data sk co
              | none => co
            ("v2ray-plugin".data, co)
          else (plugin_name, opts)
        if pc.2 = [] then (some pc.1, none) else (some pc.1, some pc.2)

/-- `parse_host_port` (parser.rs lines 1195-1224): bracketed IPv6 first,
falling through to a last-colon split. -/
def parse_host_port (s : List Char) : Except ConvertError (List Char × Nat) :=
  match (if s.head? = some '[' then findSubIdx "]".data s else none) with
  | some bidx =>
    let host := (s.take bidx).drop 1
    let port_str := s.drop (bidx + 1)
    match parseU16 (port_str.dropWhile (· = ':')) with
    | some port => .ok (host, port)
    | none => .error (.invalidNodeFormat "ss".data "Invalid port".data)
  | none =>
    match rsplitOnceChar ':' s with
    | none => .error (.invalidNodeFormat "ss".data "Missing port".data)
    | some (host, port_str) =>
      match parseU16 port_str with
      | some port => .ok (host, port)
      | none => .error (.invalidNodeFormat "ss".data "Invalid port".data)

/-- `parse_shadowsocks` (parser.rs lines 413-521): SIP002 first, then the
legacy fully-base64 form. -/
def parse_shadowsocks (link0 : List Char) : Except ConvertError Node :=
  if "ss://".data.isPrefixOf link0 then
    let l1 := link0.drop 5
    let fn : List Char × List Char :=
      match findSubIdx "#".data l1 with
      | some idx => (l1.take idx, url_decode (l1.drop (idx + 1)))
      | none => (l1, [])
    let l2 := fn.1
    let name0 := fn.2
    let lq : List Char × Option (List Char) :=
      match findSubIdx "?".data l2 with
      | some idx => (l2.take idx, some (l2.drop (idx + 1)))
      | none => (l2, none)
    let l3 := lq.1
    let pl := parse_ss_plugin lq.2
    match rsplitOnceChar '@' l3 with
    | some (encoded, server_port0) =>
      let server_port := trimEndMatchesChar '/' server_port0
      match decode_base64_flexible encoded with
      | .error e => .error e
      | .ok decoded =>
        match splitOnceChar ':' (utf8Lossy decoded) with
        | none =>
          .error (.invalidNodeFormat "ss".data
            "Invalid method:password format".data)
        | some (cipher, password) =>
          if !is_valid_ss_cipher cipher then
            .error (.invalidNodeFormat "ss".data "Unsupported cipher".data)
          else
            match parse_host_port server_port with
            | .error e => .error e
            | .ok (server, port) =>
              let name := if name0 = [] then server else name0
              .ok (.shadowsocks
                { name := name, server := server, port := port,
                  cipher := cipher, password := password, udp := some true,
                  plugin := pl.1, plugin_opts := pl.2 })
    | none =>
      match decode_base64_flexible l3 with
      | .error e => .error e
      | .ok decoded =>
        match rsplitOnceChar '@' (utf8Lossy decoded) with
        | none =>
          .error (.invalidNodeFormat "ss".data "Missing @ separator".data)
        | some (method_pass, server_port) =>
          match splitOnceChar ':' method_pass with
          | none =>
            .error (.invalidNodeFormat "ss".data
              "Invalid method:password format".data)
          | some (cipher, password) =>
            if !is_valid_ss_cipher cipher then
              .error (.invalidNodeFormat "ss".data "Unsupported cipher".data)
            else
              match parse_host_port server_port with
              | .error e => .error e
              | .ok (server, port) =>
                let name := if name0 = [] then server else name0
                .ok (.shadowsocks
                  { name := name, server := server, port := port,
                    cipher := cipher, password := password, udp := some true,
                    plugin := pl.1, plugin_opts := pl.2 })
  else .error (.invalidNodeFormat "ss".data "Missing ss:// prefix".data)

-- ============================================================================
-- Trojan parsing (parser.rs lines 790-868)
-- ============================================================================

/-- The transport-options step of `parse_trojan` (parser.rs 845-865). -/
def applyTrojanNetwork (params : List (List Char × List Char))
    (network : Option (List Char)) (tn : TrojanNode) : TrojanNode :=
  match network with
  | none => tn
  | some net =>
    if net = "ws".data then
      let headers :=
        match getParamFn params "host".data with
        | some host => [("Host".data, host)]
        | none => []
      let hOpt := if headers = [] then none else some headers
      let wo := some (WsOpts.mk (getParamFn params "path".data) hOpt)
      { tn with ws_opts := wo }
    else if net = "grpc".data then
      let go := some (GrpcOpts.mk (getParamFn params "serviceName".data))
      { tn with grpc_opts := go }
    else tn

/-- `parse_trojan` (parser.rs lines 790-868). -/
def parse_trojan (link : List Char) : Except ConvertError Node :=
  match urlParse link with
  | none => .error (.urlParseError "invalid url".data)
  | some url =>
    if url.username = [] then
      .error (.missingField "password".data "Trojan URL".data)
    else
      match url.host with
      | none => .error (.missingField "server".data "Trojan URL".data)
      | some server =>
        let port := url.port.getD 443
        let name := url_decode (url.fragment.getD server)
        let params := urlQueryParams url
        let network := getParamFn params "type".data
        let base : TrojanNode :=
          { name := name, server := server, port := port,
            password := url_decode url.username,
            sni := getParamFn params "sni".data,
            skip_cert_verify := (indexGet params "allowInsecure".data).map
              (fun v => v = "1".data ∨ v = "true".data),
            alpn := (getParamFn params "alpn".data).bind splitAlpn,
            network := network, ws_opts := none, grpc_opts := none,
            client_fingerprint := getParamFn params "fp".data }
        .ok (.trojan (applyTrojanNetwork params network base))

-- ============================================================================
-- Hysteria v1 parsing (parser.rs lines 877-939)
-- ============================================================================

/-- `urlencoding::decode(...).unwrap_or_default()`: empty string on invalid
UTF-8 (unlike `url_decode`, which keeps the input). -/
def urlDecodeOrEmpty (s : List Char) : List Char :=
  match utf8Decode (percentDecodeBytes s) with
  | some t => t
  | none => []

/-- `parse_hysteria` (parser.rs lines 877-939). -/
def parse_hysteria (link0 : List Char) : Except ConvertError Node :=
  let link :=
    if "hy://".data.isPrefixOf link0 then
      "hysteria://".data ++ link0.drop 5
    else link0
  match urlParse link with
  | none => .error (.urlParseError "invalid url".data)
  | some url =>
    match url.host with
    | none => .error (.invalidNodeFormat "hysteria".data "Missing server".data)
    | some server =>
      match url.port with
      | none => .error (.invalidNodeFormat "hysteria".data "Missing port".data)
      | some port =>
        let name0 := urlDecodeOrEmpty (url.fragment.getD [])
        let name :=
          if name0 = [] then server ++ [':'] ++ natDigits port else name0
        let params := urlQueryParams url
        let g := getParamFn params
        .ok (.hysteria
          { name := name, server := server, port := port,
            auth_str := g "auth".data,
            protocol := g "protocol".data,
            up := (g "upmbps".data).map (· ++ " Mbps".data),
            down := (g "downmbps".data).map (· ++ " Mbps".data),
            obfs := (g "obfs".data).orElse (fun _ => g "obfsParam".data),
            sni := (g "peer".data).orElse (fun _ => g "sni".data),
            skip_cert_verify := (g "insecure".data).map
              (fun v => v = "1".data ∨ v = "true".data),
            alpn := (g "alpn".data).bind splitAlpn,
            fingerprint := g "pinSHA256".data })

-- ============================================================================
-- Hysteria2 parsing (parser.rs lines 945-1006)
-- ============================================================================

/-- `parse_hysteria2` (parser.rs lines 945-1006). -/
def parse_hysteria2 (link0 : List Char) : Except ConvertError Node :=
  let link :=
    if "hy2://".data.isPrefixOf link0 then
      "hysteria2://".data ++ link0.drop 6
    else link0
  match urlParse link with
  | none => .error (.urlParseError "invalid url".data)
  | some url =>
    if url.username = [] then
      .error (.missingField "password".data "Hysteria2 URL".data)
    else
      match url.host with
      | none => .error (.missingField "server".data "Hysteria2 URL".data)
      | some server =>
        let port := url.port.getD 443
        let name := url_decode (url.fragment.getD server)
        let params := urlQueryParams url
        let g := getParamFn params
        .ok (.hysteria2
          { name := name, server := server, port := port,
            password := url_decode url.username,
            ports := g "mport".data,
            obfs := g "obfs".data,
            obfs_password := g "obfs-password".data,
            sni := g "sni".data,
            skip_cert_verify := (indexGet params "insecure".data).map
              (fun v => v = "1".data ∨ v = "true".data),
            alpn := (g "alpn".data).bind splitAlpn,
            fingerprint := g "pinSHA256".data,
            up := g "up".data, down := g "down".data })

-- ============================================================================
-- TUIC parsing (parser.rs lines 1012-1069)
-- ============================================================================

/-- `parse_tuic` (parser.rs lines 1012-1069). -/
def parse_tuic (link : List Char) : Except ConvertError Node :=
  match urlParse link with
  | none => .error (.urlParseError "invalid url".data)
  | some url =>
    match url.host with
    | none => .error (.missingField "server".data "TUIC URL".data)
    | some server =>
      let port := url.port.getD 443
      let name := url_decode (url.fragment.getD server)
      let params := urlQueryParams url
      let g := getParamFn params
      let uuid_str := url.username
      let password_str := (url.password.map url_decode).getD []
      let upt : Option (List Char) × Option (List Char) × Option (List Char) :=
        if uuid_str ≠ [] then
          (some uuid_str,
            (if password_str ≠ [] then some password_str else none), none)
        else (none, none, g "token".data)
      .ok (.tuic
        { name := name, server := server, port := port,
          token := upt.2.2, uuid := upt.1, password := upt.2.1,
          sni := g "sni".data,
          skip_cert_verify :=
            ((indexGet params "allowInsecure".data).orElse
              (fun _ => indexGet params "insecure".data)).map
              (fun v => v = "1".data ∨ v = "true".data),
          alpn := (g "alpn".data).bind splitAlpn,
          disable_sni := (indexGet params "disable_sni".data).map
            (fun v => v = "1".data ∨ v = "true".data),
          reduce_rtt := (indexGet params "reduce_rtt".data).map
            (fun v => v = "1".data ∨ v = "true".data),
          udp_relay_mode := (g "udp_relay_mode".data).orElse
            (fun _ => g "udp-relay-mode".data),
          congestion_controller := (g "congestion_control".data).orElse
            (fun _ => g "congestion-controller".data) })

-- ============================================================================
-- WireGuard parsing (parser.rs lines 1077-1183)
-- ============================================================================

/-- `parse_wireguard` (parser.rs lines 1077-1183). -/
def parse_wireguard (link0 : List Char) : Except ConvertError Node :=
  let link :=
    if "wg://".data.isPrefixOf link0 then
      "wireguard://".data ++ link0.drop 5
    else link0
  match urlParse link with
  | none => .error (.urlParseError "invalid url".data)
  | some url =>
    match url.host with
    | none =>
      .error (.invalidNodeFormat "wireguard".data "Missing server".data)
    | some server =>
      let port := url.port.getD 51820
      let name0 := urlDecodeOrEmpty (url.fragment.getD [])
      let name :=
        if name0 = [] then "WG-".data ++ server ++ [':'] ++ natDigits port
        else name0
      let params := urlQueryParams url
      let g := getParamFn params
      match ((g "pk".data).orElse (fun _ => g "private_key".data)).orElse
          (fun _ => g "privatekey".data) with
      | none =>
        .error (.invalidNodeFormat "wireguard".data
          "Missing private key (pk)".data)
      | some private_key =>
        match (((g "peer_pk".data).orElse
            (fun _ => g "peer_public_key".data)).orElse
            (fun _ => g "publickey".data)).orElse
            (fun _ => g "public_key".data) with
        | none =>
          .error (.invalidNodeFormat "wireguard".data
            "Missing peer public key (peer_pk)".data)
        | some public_key =>
          let local_address := ((g "local_address".data).orElse
            (fun _ => g "address".data)).orElse (fun _ => g "ip".data)
          let ips : Option (List Char) × Option (List Char) :=
            match local_address with
            | some addr =>
              (splitOnChar ',' addr).foldl (fun acc part =>
                let part := rustTrim part
                if part.contains ':' then (acc.1, some part)
                else if part ≠ [] then (some part, acc.2)
                else acc) (none, none)
            | none => (none, none)
          let reserved := ((g "reserved".data).map (fun s =>
            (splitOnChar ',' s).filterMap (fun v => parseU16 (rustTrim v))))
          let reserved := match reserved with
            | some l => if l ≠ [] then some l else none
            | none => none
          let dns := ((g "dns".data).map (fun s =>
            ((splitOnChar ',' s).map rustTrim).filter (· ≠ [])))
          let dns := match dns with
            | some l => if l ≠ [] then some l else none
            | none => none
          .ok (.wireGuard
            { name := name, server := server, port := port,
              private_key := private_key, public_key := public_key,
              ip := ips.1, ipv6 := ips.2,
              pre_shared_key := (g "pre_shared_key".data).orElse
                (fun _ => g "psk".data),
              reserved := reserved,
              mtu := (g "mtu".data).bind parseU32,
              dns := dns })

-- ============================================================================
-- Link dispatch (parser.rs lines 113-139)
-- ============================================================================

/-- `link.split("://").next().unwrap_or("unknown")`. -/
def schemeHead (link : List Char) : List Char :=
  match findSubIdx "://".data link with
  | some i => link.take i
  | none => link

/-- `parse_single_link` (parser.rs lines 113-139). -/
def parse_single_link (link0 : List Char) : Except ConvertError Node :=
  let link := rustTrim link0
  if "vless://".data.isPrefixOf link then parse_vless link
  else if "vmess://".data.isPrefixOf link then parse_vmess link
  else if "ss://".data.isPrefixOf link then parse_shadowsocks link
  else if "ssr://".data.isPrefixOf link then parse_ssr link
  else if "trojan://".data.isPrefixOf link then parse_trojan link
  else if "hysteria2://".data.isPrefixOf link ∨
      "hy2://".data.isPrefixOf link then parse_hysteria2 link
  else if "hysteria://".data.isPrefixOf link ∨
      "hy://".data.isPrefixOf link then parse_hysteria link
  else if "tuic://".data.isPrefixOf link then parse_tuic link
  else if "wireguard://".data.isPrefixOf link ∨
      "wg://".data.isPrefixOf link then parse_wireguard link
  else .error (.unsupportedProtocol (schemeHead link))

-- ============================================================================
-- Subscription-content parsing (parser.rs lines 14-90)
-- ============================================================================

/-- `clean_subscription_input` (parser.rs lines 71-79): the BOM is stripped
as a one-character pattern, so this function is total. -/
def clean_subscription_input (content : List Char) : List Char :=
  let c1 := if content.head? = some bomChar then content.drop 1 else content
  rustTrim (replaceCr (replaceCrlf c1))

/-- `looks_like_base64` (parser.rs lines 82-90). -/
def looks_like_base64 (content : List Char) : Bool :=
  let c := stripB64Ws content
  !containsSub "://".data c &&
    c.all (fun ch => isAsciiAlnum ch || ch == '+' || ch == '/' || ch == '=' ||
      ch == '-' || ch == '_')

/-- The base64-or-plain step of `parse_subscription_content`
(parser.rs lines 18-28). -/
def parseDecodedContent (content0 : List Char) : List Char :=
  let content := clean_subscription_input content0
  if looks_like_base64 content then
    match decode_base64_flexible content with
    | .ok bytes => clean_subscription_input (utf8Lossy bytes)
    | .error _ => content
  else content

/-- `Display` of `ConvertError` as generated by the `thiserror` attributes
(error.rs lines 5-39). -/
def convertErrorDisplay : ConvertError → List Char
  | .fetchError url reason =>
    "Failed to fetch URL: ".data ++ url ++ " - ".data ++ reason
  | .base64DecodeError m => "Failed to decode base64 content: ".data ++ m
  | .urlParseError m => "Failed to parse URL: ".data ++ m
  | .iniParseError m => "Failed to parse INI config: ".data ++ m
  | .yamlSerializeError m => "Failed to serialize YAML: ".data ++ m
  | .invalidNodeFormat p r =>
    "Invalid node format: ".data ++ p ++ " - ".data ++ r
  | .invalidRegex p r =>
    "Invalid regex pattern: ".data ++ p ++ " - ".data ++ r
  | .unsupportedProtocol s => "Unsupported protocol: ".data ++ s
  | .missingField f c =>
    "Missing required field: ".data ++ f ++ " in ".data ++ c
  | .timeout u => "Request timeout: ".data ++ u
  | .internal m => "Internal error: ".data ++ m

/-- Rust byte slicing `&s[..n]`: panics when `n` is not a char boundary or
exceeds the length. -/
def byteTakeAux (s : List Char) (n : Nat) : Except (List Char) (List Char) :=
  match s, n with
  | _, 0 => .ok []
  | [], _ + 1 => .error "byte index out of bounds".data
  | c :: rest, m + 1 =>
    if utf8Size c ≤ m + 1 then
      match byteTakeAux rest (m + 1 - utf8Size c) with
      | .ok t => .ok (c :: t)
      | .error e => .error e
    else .error "byte index is not a char boundary".data

/-- The warning-truncation step of `parse_subscription_content`
(parser.rs lines 43-47): `&line[..50]` is a byte slice and can panic. -/
def truncLine (line : List Char) : Except (List Char) (List Char) :=
  if 50 < byteLen line then
    match byteTakeAux line 50 with
    | .ok t => .ok (t ++ "...".data)
    | .error e => .error e
  else .ok line

/-- The per-line loop of `parse_subscription_content`
(parser.rs lines 33-51). -/
def parseLinesGo (ls : List (List Char)) (nodes : List Node)
    (warnings : List (List Char)) :
    Except (List Char) (List Node × List (List Char)) :=
  match ls with
  | [] => .ok (nodes, warnings)
  | line :: rest =>
    let line := rustTrim line
    if line = [] ∨ line.head? = some '#' then parseLinesGo rest nodes warnings
    else
      match parse_single_link line with
      | .ok node => parseLinesGo rest (nodes ++ [node]) warnings
      | .error e =>
        match truncLine line with
        | .ok t =>
          parseLinesGo rest nodes
            (warnings ++ [t ++ ": ".data ++ convertErrorDisplay e])
        | .error p => .error p

/-- `parse_subscription_content` (parser.rs lines 14-68).  The outer
`Except (List Char)` is the panic channel of the warning truncation. -/
def parse_subscription_content (content : List Char) :
    Except (List Char) (Except ConvertError (List Node)) :=
  let decoded := parseDecodedContent content
  match parseLinesGo (rustLines decoded) [] [] with
  | .error p => .error p
  | .ok (nodes, warnings) =>
    if nodes = [] ∧ warnings ≠ [] then
      .ok (.error (.internal ("No valid proxy nodes found. ".data ++
        natDigits warnings.length ++
        " link(s) failed to parse. First error: ".data ++
        warnings.headD "Unknown error".data)))
    else .ok (.ok nodes)

/-- The trimmed, non-empty, non-comment lines actually submitted to
`parse_single_link` by the loop at parser.rs lines 33-51. -/
def procLines (ls : List (List Char)) : List (List Char) :=
  (ls.map rustTrim).filter
    (fun l => !(decide (l = []) || decide (l.head? = some '#')))

-- ============================================================================
-- Subscription resolution and conversion (engine.rs lines 121-335,
-- http_client.rs)
-- ============================================================================

/-- `SubscriptionInfo` (http_client.rs lines 14-24). -/
structure SubscriptionInfo where
  upload : Option Nat
  download : Option Nat
  total : Option Nat
  expire : Option Int
deriving Repr, DecidableEq

/-- `FetchWithInfoResult` (http_client.rs lines 50-53). -/
structure FetchedContent where
  body : List Char
  subscription_info : Option SubscriptionInfo
deriving Repr, DecidableEq

/-- The item splitting of `resolve_subscription` (engine.rs lines 261-275). -/
def splitItems (content : List Char) : List (List Char) :=
  if content.contains '|' && !containsSub "://".data content then
    splitOnChar '|' content
  else if content.contains '|' then
    if 1 < countHttp content then splitOnChar '|' content else [content]
  else rustLines content

/-- The URL / direct-content classification of `resolve_subscription`
(engine.rs lines 282-296). -/
def classifyItems (items : List (List Char)) :
    List (List Char) × List (List Char) :=
  items.foldl (fun acc item =>
    let it := rustTrim item
    if it = [] then acc
    else if "http://".data.isPrefixOf it || "https://".data.isPrefixOf it then
      (acc.1 ++ [it], acc.2)
    else (acc.1, acc.2 ++ [it])) ([], [])

/-- The per-result loop of `resolve_subscription` (engine.rs lines 306-328):
a failed fetch is skipped without any other effect.  `join_all` preserves
the order of the URLs, so the sequential fold is faithful. -/
def resolveFetchGo (fetch : List Char → Except ConvertError FetchedContent) :
    List (List Char) → List (List Char) → Option SubscriptionInfo →
    Except (List Char) (List (List Char) × Option SubscriptionInfo)
  | [], acc, fsi => .ok (acc, fsi)
  | url :: rest, acc, fsi =>
    match fetch url with
    | .ok fetched =>
      let fsi2 := if fsi.isNone then fetched.subscription_info else fsi
      match decode_subscription_body fetched.body with
      | .error p => .error p
      | .ok decoded =>
        let ls := ((rustLines decoded).map rustTrim).filter (· ≠ [])
        resolveFetchGo fetch rest (acc ++ ls) fsi2
    | .error _ => resolveFetchGo fetch rest acc fsi

/-- `SubscriptionEngine::resolve_subscription` (engine.rs lines 256-335),
parameterized by the HTTP fetch oracle.  The outer `Except (List Char)` is
the panic channel of `clean_input` / `decode_subscription_body`. -/
def resolve_subscription
    (fetch : List Char → Except ConvertError FetchedContent)
    (content0 : List Char) :
    Except (List Char) (List Char × Option SubscriptionInfo) :=
  match clean_input content0 with
  | .error p => .error p
  | .ok content =>
    let cls := classifyItems (splitItems content)
    match resolveFetchGo fetch cls.1 [] none with
    | .error p => .error p
    | .ok (fetched_lines, fsi) =>
      .ok (List.intercalate "\n".data (fetched_lines ++ cls.2), fsi)

/-- `filter_nodes` (filter.rs lines 9-58), parameterized by the regex
engine. -/
def filter_nodes (eng : RegexEngine) (nodes : List Node)
    (include_pattern exclude_pattern : Option (List Char)) :
    Except ConvertError (List Node) :=
  let compileOpt : Option (List Char) →
      Except ConvertError (Option CompiledRegex) := fun p =>
    match p with
    | some s =>
      if s ≠ [] then
        match eng.compile s with
        | .ok r => .ok (some r)
        | .error e => .error (.invalidRegex s e)
      else .ok none
    | none => .ok none
  match compileOpt include_pattern with
  | .error e => .error e
  | .ok incRe =>
    match compileOpt exclude_pattern with
    | .error e => .error e
    | .ok excRe =>
      .ok (nodes.filter (fun n =>
        (match incRe with
         | some re => re.isMatch n.name
         | none => true) &&
        (match excRe with
         | some re => !re.isMatch n.name
         | none => true)))

/-- The fields of `ConvertRequest` (engine.rs lines 24-66) that influence
steps 1-5 of `convert`. -/
structure ConvertRequestM where
  subscription : List Char
  include_regex : Option (List Char)
  exclude_regex : Option (List Char)
  rename_pattern : Option (List Char)
  rename_replacement : Option (List Char)
  ini_url : Option (List Char)
  ini_content : Option (List Char)

/-- Steps 1-5 of `SubscriptionEngine::convert` (engine.rs lines 121-198):
everything up to and including INI loading, returning the final node list
and the accumulated warnings.  Steps 6-7 (engine.rs lines 200-223) push no
warnings and do not change the node list, so the warnings of the returned
`ConvertResult` are exactly the ones accumulated here.  `parseIni` stands
for `parse_ini_config`. -/
def convertStep15
    (fetch : List Char → Except ConvertError FetchedContent)
    (parseIni : List Char → Except ConvertError Unit)
    (eng : RegexEngine) (req : ConvertRequestM) :
    Except (List Char) (Except ConvertError (List Node × List (List Char))) :=
  match resolve_subscription fetch req.subscription with
  | .error p => .error p
  | .ok (raw, _si) =>
    match parse_subscription_content raw with
    | .error p => .error p
    | .ok (.error e) => .ok (.error e)
    | .ok (.ok nodes) =>
      if nodes = [] then
        .ok (.error (.internal "No valid nodes found in subscription".data))
      else
        let warnings : List (List Char) := []
        let before := nodes.length
        let nodes2 := deduplicate_nodes nodes
        let warnings :=
          if nodes2.length < before then
            warnings ++ ["Removed ".data ++ natDigits (before - nodes2.length)
              ++ " duplicate nodes".data]
          else warnings
        match filter_nodes eng nodes2 req.include_regex req.exclude_regex with
        | .error e => .ok (.error e)
        | .ok nodes3 =>
          if nodes3 = [] then
            .ok (.error (.internal
              "All nodes were filtered out. Check your filter patterns.".data))
          else
            let renRes : Except ConvertError (List Node) :=
              match req.rename_pattern, req.rename_replacement with
              | some p, some r =>
                if p ≠ [] then rename_nodes eng nodes3 p r else .ok nodes3
              | _, _ => .ok nodes3
            match renRes with
            | .error e => .ok (.error e)
            | .ok nodes4 =>
              let warnings :=
                match req.ini_url with
                | some url =>
                  if url ≠ [] then
                    match fetch url with
                    | .ok content =>
                      match parseIni content.body with
                      | .ok _ => warnings
                      | .error e =>
                        warnings ++ ["Failed to parse INI config: ".data ++
                          convertErrorDisplay e]
                    | .error e =>
                      warnings ++ ["Failed to fetch INI config: ".data ++
                        convertErrorDisplay e]
                  else warnings
                | none =>
                  match req.ini_content with
                  | some content =>
                    if content ≠ [] then
                      match parseIni content with
                      | .ok _ => warnings
                      | .error e =>
                        warnings ++ ["Failed to parse INI content: ".data ++
                          convertErrorDisplay e]
                    else warnings
                  | none => warnings
              .ok (.ok (nodes4, warnings))

-- ============================================================================
-- C2: warnings of parse_subscription_content are discarded
-- ============================================================================

/-- The per-line loop appends exactly the successfully parsed nodes of the
processed lines, plus some warnings. -/
theorem parseLinesGo_ok (ls : List (List Char)) :
    ∀ (nodes : List Node) (warnings : List (List Char)),
    (∀ l ∈ procLines ls, (parse_single_link l).toOption = none →
      ∃ t, truncLine l = Except.ok t) →
    ∃ ws, parseLinesGo ls nodes warnings =
      .ok (nodes ++ (procLines ls).filterMap
        (fun l => (parse_single_link l).toOption), warnings ++ ws) := by
  induction ls with
  | nil =>
    intro nodes warnings _
    exact ⟨[], by simp [parseLinesGo, procLines]⟩
  | cons line rest ih =>
    intro nodes warnings h
    by_cases hskip : rustTrim line = [] ∨ (rustTrim line).head? = some '#'
    · have hproc : procLines (line :: rest) = procLines rest := by
        simp only [procLines, List.map_cons, List.filter_cons]
        rcases hskip with h1 | h1 <;> simp [h1]
      rw [hproc] at h
      obtain ⟨ws, hws⟩ := ih nodes warnings h
      refine ⟨ws, ?_⟩
      simp only [parseLinesGo]
      rw [if_pos hskip, hws, hproc]
    · have hne : ¬ rustTrim line = [] := fun hc => hskip (Or.inl hc)
      have hnh : ¬ (rustTrim line).head? = some '#' :=
        fun hc => hskip (Or.inr hc)
      have hproc : procLines (line :: rest) =
          rustTrim line :: procLines rest := by
        simp only [procLines, List.map_cons, List.filter_cons]
        simp [hne, hnh]
      have h' : ∀ l ∈ procLines rest,
          (parse_single_link l).toOption = none →
          ∃ t, truncLine l = Except.ok t :=
        fun l hl => h l (hproc ▸ List.mem_cons_of_mem _ hl)
      cases hp : parse_single_link (rustTrim line) with
      | ok node =>
        obtain ⟨ws, hws⟩ := ih (nodes ++ [node]) warnings h'
        refine ⟨ws, ?_⟩
        simp only [parseLinesGo]
        rw [if_neg hskip, hp]
        dsimp only
        rw [hws, hproc]
        simp [List.filterMap_cons, hp, Except.toOption, List.append_assoc]
      | error e =>
        have hmem : rustTrim line ∈ procLines (line :: rest) := by
          rw [hproc]; exact List.mem_cons_self _ _
        obtain ⟨t, ht⟩ := h (rustTrim line) hmem (by rw [hp]; rfl)
        obtain ⟨ws, hws⟩ :=
          ih nodes (warnings ++ [t ++ ": ".data ++ convertErrorDisplay e]) h'
        refine ⟨(t ++ ": ".data ++ convertErrorDisplay e) :: ws, ?_⟩
        simp only [parseLinesGo]
        rw [if_neg hskip, hp]
        dsimp only
        rw [ht]
        dsimp only
        rw [hws, hproc]
        simp [List.filterMap_cons, hp, Except.toOption, List.append_assoc]

/-- **C2.** For every subscription content whose processed lines contain at
least one that parses successfully (and whose unparseable lines survive the
50-byte warning truncation), `parse_subscription_content` succeeds and
returns exactly the successfully parsed nodes, in order.  The per-line
warnings — including the truncated texts for the unparseable lines — are
accumulated internally but discarded: the returned value carries no
warnings field at all, so no caller (in particular `convert`, whose
`warnings` list is fed only by the deduplication and INI steps) can
enumerate the unparseable lines. -/
theorem parse_subscription_content_spec (content : List Char)
    (h1 : ∀ l ∈ procLines (rustLines (parseDecodedContent content)),
      (parse_single_link l).toOption = none → ∃ t, truncLine l = Except.ok t)
    (h2 : (procLines (rustLines (parseDecodedContent content))).filterMap
      (fun l => (parse_single_link l).toOption) ≠ []) :
    parse_subscription_content content =
      .ok (.ok ((procLines (rustLines (parseDecodedContent content))).filterMap
        (fun l => (parse_single_link l).toOption))) := by
  obtain ⟨ws, hws⟩ :=
    parseLinesGo_ok (rustLines (parseDecodedContent content)) [] [] h1
  unfold parse_subscription_content
  dsimp only
  rw [hws]
  dsimp only
  simp only [List.nil_append]
  rw [if_neg (fun hc => h2 hc.1)]

def sampleVlessLink : List Char := "vless://u@1.2.3.4:443?type=tcp#a".data

def mixedContent : List Char :=
  "vless://u@1.2.3.4:443?type=tcp#a\nnotaurl".data

def sampleVlessNode : Node :=
  .vless
    { name := "a".data, server := "1.2.3.4".data, port := 443,
      uuid := "u".data, flow := none, network := "tcp".data,
      tls := some false, servername := none, skip_cert_verify := none,
      alpn := none, reality_opts := none, ws_opts := none, grpc_opts := none,
      h2_opts := none, client_fingerprint := none, packet_encoding := none }

theorem parse_subscription_content_spec_witness :
    parse_subscription_content mixedContent =
      .ok (.ok [sampleVlessNode]) := by
  refine (parse_subscription_content_spec mixedContent ?_ ?_).trans (by decide)
  · intro l hl hno
    have e : procLines (rustLines (parseDecodedContent mixedContent)) =
        [sampleVlessLink, "notaurl".data] := by decide
    rw [e] at hl
    rcases List.mem_cons.mp hl with h1 | hl2
    · subst h1; exact absurd hno (by decide)
    · rcases List.mem_cons.mp hl2 with h1 | h0
      · subst h1; exact ⟨"notaurl".data, by decide⟩
      · exact absurd h0 (List.not_mem_nil l)
  · decide

def reqDirectMixed : ConvertRequestM :=
  ⟨mixedContent, none, none, none, none, none, none⟩

/-- **C2 counterexample.** A conversion of an input mixing one valid line
with the malformed line "notaurl" succeeds with one node, but its warnings
list is empty: the unparseable line is not enumerated anywhere in the
result. -/
theorem parse_subscription_warnings_not_reported :
    convertStep15 (fun u => .error (.timeout u)) (fun _ => .ok ())
      idRegexEngine reqDirectMixed = .ok (.ok ([sampleVlessNode], [])) := by
  decide

-- ============================================================================
-- C1: failed fetches are silently skipped
-- ============================================================================

/-- The fetch loop of `resolve_subscription` depends only on which fetches
succeed (and with what content): the error values contribute nothing. -/
theorem resolveFetchGo_congr
    (f1 f2 : List Char → Except ConvertError FetchedContent)
    (h : ∀ u, (f1 u).toOption = (f2 u).toOption) :
    ∀ (urls acc : List (List Char)) (fsi : Option SubscriptionInfo),
    resolveFetchGo f1 urls acc fsi = resolveFetchGo f2 urls acc fsi := by
  intro urls
  induction urls with
  | nil => intro acc fsi; rfl
  | cons u rest ih =>
    intro acc fsi
    have hu := h u
    cases h1 : f1 u with
    | ok a =>
      cases h2 : f2 u with
      | ok b =>
        have hab : a = b := by
          rw [h1, h2] at hu
          simpa [Except.toOption] using hu
        subst hab
        simp only [resolveFetchGo, h1, h2]
        cases decode_subscription_body a.body with
        | error p => rfl
        | ok d => exact ih _ _
      | error e2 =>
        rw [h1, h2] at hu
        simp [Except.toOption] at hu
    | error e1 =>
      cases h2 : f2 u with
      | ok b =>
        rw [h1, h2] at hu
        simp [Except.toOption] at hu
      | error e2 =>
        simp only [resolveFetchGo, h1, h2]
        exact ih _ _

/-- **C1.** The output of `resolve_subscription` depends only on which URLs
fetch successfully and on the successful bodies: two fetch oracles that
succeed on the same URLs with the same content (but may fail with
different errors — timeout, connection error, non-2xx — elsewhere) resolve
every request identically.  A URL whose fetch fails is silently skipped:
it contributes nothing to the resolved content — in particular no warning
text derived from it — while the remaining URLs still proceed. -/
theorem resolve_subscription_error_insensitive
    (fetch1 fetch2 : List Char → Except ConvertError FetchedContent)
    (content : List Char)
    (h : ∀ u, (fetch1 u).toOption = (fetch2 u).toOption) :
    resolve_subscription fetch1 content =
      resolve_subscription fetch2 content := by
  unfold resolve_subscription
  cases clean_input content with
  | error p => rfl
  | ok c =>
    dsimp only
    rw [resolveFetchGo_congr fetch1 fetch2 h
      (classifyItems (splitItems c)).1 [] none]

theorem resolve_subscription_error_insensitive_witness :
    resolve_subscription (fun u => .error (.timeout u))
        "http://a.example/x".data =
      resolve_subscription
        (fun u => .error (.fetchError u "HTTP 500".data))
        "http://a.example/x".data :=
  resolve_subscription_error_insensitive _ _ _ (fun _ => rfl)

def fetchOneGood : List Char → Except ConvertError FetchedContent :=
  fun u =>
    if u = "http://good.example/sub".data then
      .ok ⟨sampleVlessLink, none⟩
    else .error (.fetchError u "HTTP 500 Internal Server Error".data)

def reqTwoUrls : ConvertRequestM :=
  ⟨"http://good.example/sub\nhttp://bad.example/sub".data,
   none, none, none, none, none, none⟩

/-- **C1 counterexample.** A request with one succeeding and one failing
URL: the conversion succeeds with the node of the succeeding URL and an
*empty* warnings list — the failed fetch contributes no warning, although
it was part of the request. -/
theorem resolve_subscription_failed_fetch_no_warning :
    convertStep15 fetchOneGood (fun _ => .ok ()) idRegexEngine reqTwoUrls =
        .ok (.ok ([sampleVlessNode], [])) ∧
      (fetchOneGood "http://bad.example/sub".data).toOption = none ∧
      containsSub "http://bad.example/sub".data reqTwoUrls.subscription =
        true := by
  refine ⟨by decide, by decide, by decide⟩

end V2C
